import Mathlib

/-!
# Visual Synchronome: the frame store

A shallow embedding of `source/circular_buff.c` (with the constants and types of
`includes/circular_buff.h`), of the hand-off queue of `source/writeback.c` and of
the difference filter and selector of `source/differencing.c`, with theorems about
the cursor arithmetic, the queue and the two pipeline stages.

Modelling conventions.

* The C `int` globals `wptr`, `rptr_diff`, `rptr_sel`, `depth` are mathematical
  integers.  The only arithmetic the code performs on them is `x + 1`, `x - 1`
  and comparisons; none of it can overflow a 32-bit `int` unless a cursor
  already sits at `INT_MIN`/`INT_MAX`, far outside the range `0 .. QUEUE_DEPTH`
  the theorems are concerned with.
* The `int` globals `new_ts` and `old_ts` hold results of `getMSfromTimestamp`,
  a conversion from `double` to `int`.  The conversion is embedded with the
  range of `int` (`INT_MIN`, `INT_MAX`) and the subtraction `new_ts - old_ts`
  with 32-bit wrap-around (`wrapInt`); theorems that depend on the value carry
  the hypotheses under which neither leaves the range.
* `pointer_type_t` is a C enum, i.e. an `int` that may hold any value; the
  role argument is therefore an integer and the enumerators are constants.
* The macro `QUEUE_DEPTH` is a compile-time constant.  Each function that uses
  it is embedded once with the capacity as an explicit argument (`nextPtrAt`,
  `write_size_and_timeAt`) and once, under the source name, at the header's
  value `QUEUE_DEPTH = 90`.
* `frame_buffer` is the array the caller passes in; it is modelled as a total
  map from slot index to frame record, so that "every other slot" is every
  other index.
* A pointer into the store is the index of the slot it points into and `NULL`
  is `none`.  A call that reads through `NULL` has no result (`none`).
* The `while` loop of `frame_select` has no bound of its own, so it is embedded
  with a fuel argument; `frame_select_loop_returns` shows that 90 units are
  enough whenever the cursors are in range.
* Logging (`printf`, `syslog`) and the mutex calls are left out: they touch none
  of the modelled variables.
-/

namespace VisualSynchronome

/-! ## Constants of `circular_buff.h` -/

/-- Number of entries of the frame store (`#define QUEUE_DEPTH (90)`). -/
def QUEUE_DEPTH : Int := 90

/-- Payload capacity in bytes (`#define MAX_BUFFER_LENGTH (1280*960)`). -/
def MAX_BUFFER_LENGTH : Int := 1280 * 960

def ZERO : Int := 0
def ONE : Int := 1

def ERROR_READ_UFN : Int := 2
def ERROR_BUFFER_SIZE : Int := 3
def ERROR_NEXT_PTR : Int := 4

/-! ### `pointer_type_t` -/

def START_OF_ENUM_PTR_TYPE : Int := 0
def WRITE_POINTER : Int := 1
def READ_DIFF_POINTER : Int := 2
def READ_SEL_POINTER : Int := 3
def END_OF_ENUM_PTR_TYPE : Int := 4

/-! ## Data model -/

/-- The two fields of `struct timespec`. -/
structure timespec where
  tv_sec : Int
  tv_nsec : Int
  deriving DecidableEq

/-- One frame record (`cbuff_struct_t`). -/
structure cbuff_struct_t where
  timestamp : timespec
  usefulness : Int
  size : Int
  frame_count : Int
  buffer : List Nat
  deriving DecidableEq

/-- The four file-scope globals of `circular_buff.c`. -/
structure Cursors where
  wptr : Int
  rptr_diff : Int
  rptr_sel : Int
  depth : Int
  deriving DecidableEq

/-- The frame store: the cursor globals together with the caller's
`frame_buffer` array. -/
structure Store where
  cur : Cursors
  frame_buffer : Int → cbuff_struct_t

/-- In-place update of one slot of the array. -/
def setSlot (fb : Int → cbuff_struct_t) (i : Int) (f : cbuff_struct_t → cbuff_struct_t) :
    Int → cbuff_struct_t :=
  fun j => if j = i then f (fb j) else fb j

/-! ## Operations of `circular_buff.c` -/

/-- The function `nextPtr` with the macro `QUEUE_DEPTH` as the argument `Q`.
Returns the C return value and the globals after the call. -/
def nextPtrAt (Q : Int) (type : Int) (s : Cursors) : Bool × Cursors :=
  if type = WRITE_POINTER then
    let s1 : Cursors :=
      if s.wptr = Q - ONE then { s with wptr := ZERO } else { s with wptr := s.wptr + 1 }
    let s2 : Cursors :=
      if s1.depth < Q then { s1 with depth := s1.depth + 1 } else s1
    (true, s2)
  else if type = READ_DIFF_POINTER then
    if (s.rptr_diff < s.wptr - 1 ∧ Q ≠ s.depth) ∨ (s.rptr_diff > s.wptr ∧ s.wptr ≠ 0) then
      (true,
        if s.rptr_diff = Q - ONE then { s with rptr_diff := ZERO }
        else { s with rptr_diff := s.rptr_diff + 1 })
    else
      (false, s)
  else if type = READ_SEL_POINTER then
    if (s.rptr_sel < s.rptr_diff - 1 ∧ Q ≠ s.depth) ∨
        (s.rptr_sel > s.rptr_diff ∧ s.rptr_diff ≠ 0) then
      let s1 : Cursors :=
        if s.rptr_sel = Q - ONE then { s with rptr_sel := ZERO }
        else { s with rptr_sel := s.rptr_sel + 1 }
      let s2 : Cursors :=
        if s1.depth > 0 then { s1 with depth := s1.depth - 1 } else s1
      (true, s2)
    else
      (false, s)
  else
    (false, s)

/-- The function `nextPtr` as compiled: capacity `QUEUE_DEPTH`. -/
def nextPtr (type : Int) (s : Cursors) : Bool × Cursors :=
  nextPtrAt QUEUE_DEPTH type s

/-- The function `reset_queue`: zero depth and all three cursors. -/
def reset_queue (s : Cursors) : Cursors :=
  { s with depth := ZERO, wptr := ZERO, rptr_diff := ZERO, rptr_sel := ZERO }

/-- The function `write_size_and_time` with the capacity as the argument `Q`. -/
def write_size_and_timeAt (Q : Int) (size : Int) (ts : timespec) (st : Store) : Bool × Store :=
  let fb1 := setSlot st.frame_buffer st.cur.wptr fun e =>
    { e with timestamp := { tv_sec := ts.tv_sec, tv_nsec := ts.tv_nsec } }
  let fb2 := setSlot fb1 st.cur.wptr fun e => { e with size := size }
  let fb3 := setSlot fb2 st.cur.wptr fun e => { e with usefulness := -20 }
  (true, { cur := (nextPtrAt Q WRITE_POINTER st.cur).2, frame_buffer := fb3 })

/-- The function `write_size_and_time` as compiled. -/
def write_size_and_time (size : Int) (ts : timespec) (st : Store) : Bool × Store :=
  write_size_and_timeAt QUEUE_DEPTH size ts st

/-- The function `write_usefulness`: mark the slot at `rptr_diff`, then try to
advance the diff-reader (the result of `nextPtr` is discarded). -/
def write_usefulness (usefulness : Int) (st : Store) : Bool × Store :=
  let fb1 := setSlot st.frame_buffer st.cur.rptr_diff fun e => { e with usefulness := usefulness }
  (true, { cur := (nextPtr READ_DIFF_POINTER st.cur).2, frame_buffer := fb1 })

/-- The function `write_framecount`: the `int` argument is stored into the
`unsigned int` field, i.e. reduced modulo `2^32`. -/
def write_framecount (framecount : Int) (st : Store) : Bool × Store :=
  let fb1 := setSlot st.frame_buffer st.cur.rptr_sel fun e =>
    { e with frame_count := framecount % 2 ^ 32 }
  (true, { st with frame_buffer := fb1 })

/-! ## Runs of the store -/

/-- One call of a mutating operation of the store. -/
inductive Op where
  | nextPtr (type : Int)
  | write_size_and_time (size : Int) (ts : timespec)
  | write_usefulness (usefulness : Int)
  | write_framecount (framecount : Int)

/-- The store after one call. -/
def step (op : Op) (st : Store) : Store :=
  match op with
  | .nextPtr type => { st with cur := (nextPtr type st.cur).2 }
  | .write_size_and_time size ts => (write_size_and_time size ts st).2
  | .write_usefulness u => (write_usefulness u st).2
  | .write_framecount fc => (write_framecount fc st).2

/-- The store after a sequence of calls, first call first. -/
def run (st : Store) : List Op → Store
  | [] => st
  | op :: ops => run (step op st) ops

/-- The store right after `reset_queue()`. -/
def afterReset (st : Store) : Store :=
  { st with cur := reset_queue st.cur }

/-- The cursor advance a call performs, as the role it hands to `nextPtr`
(`START_OF_ENUM_PTR_TYPE`, which advances nothing, for `write_framecount`). -/
def Op.role : Op → Int
  | .nextPtr type => type
  | .write_size_and_time _ _ => WRITE_POINTER
  | .write_usefulness _ => READ_DIFF_POINTER
  | .write_framecount _ => START_OF_ENUM_PTR_TYPE

/-- Whether a call advances the writer. -/
def Op.isWrite (op : Op) : Bool :=
  decide (op.role = WRITE_POINTER)

/-- The cursor globals after a sequence of `nextPtr` calls with the given roles. -/
def runCur (c : Cursors) : List Int → Cursors
  | [] => c
  | type :: types => runCur (nextPtr type c).2 types

/-- Whether every call of the sequence, in the state it is made in, passes `ok`. -/
def allowed (ok : Store → Op → Bool) (st : Store) : List Op → Bool
  | [] => true
  | op :: ops => ok st op && allowed ok (step op st) ops

/-- The circular ordering select_read <= diff_read <= write: walking forward
from `rptr_sel` modulo `QUEUE_DEPTH`, `rptr_diff` is met no later than `wptr`. -/
def CircularOrder (c : Cursors) : Prop :=
  (c.rptr_diff - c.rptr_sel) % QUEUE_DEPTH ≤ (c.wptr - c.rptr_sel) % QUEUE_DEPTH

instance (c : Cursors) : Decidable (CircularOrder c) := by
  unfold CircularOrder
  infer_instance

/-- The next writer advance would move `wptr` onto the select-reader's slot
while the select-reader still trails the diff-reader. -/
def overrunsSelector (c : Cursors) : Bool :=
  decide ((c.wptr + 1) % QUEUE_DEPTH = c.rptr_sel) && decide (c.rptr_sel ≠ c.rptr_diff)

/-- The call is not a writer advance that overruns the select-reader. -/
def selectorSafe (st : Store) (op : Op) : Bool :=
  !(op.isWrite && overrunsSelector st.cur)

/-- The call is not a writer advance into a full store. -/
def storeNotFull (st : Store) (op : Op) : Bool :=
  !(op.isWrite && decide (QUEUE_DEPTH ≤ st.cur.depth))

/-- All three cursors index the `QUEUE_DEPTH`-slot array. -/
def CursorsInRange (c : Cursors) : Prop :=
  (0 ≤ c.wptr ∧ c.wptr < QUEUE_DEPTH) ∧ (0 ≤ c.rptr_diff ∧ c.rptr_diff < QUEUE_DEPTH) ∧
  (0 ≤ c.rptr_sel ∧ c.rptr_sel < QUEUE_DEPTH)

instance (c : Cursors) : Decidable (CursorsInRange c) := by
  unfold CursorsInRange
  infer_instance

/-- The invariant of runs in which the writer never advances into a full store:
cursors in range, `depth` within bounds and congruent to the circular distance
from `rptr_sel` to `wptr`, and the diff-reader at most `depth` slots ahead of
the select-reader. -/
def DepthTracksCursors (c : Cursors) : Prop :=
  CursorsInRange c ∧ (0 ≤ c.depth ∧ c.depth ≤ QUEUE_DEPTH) ∧
  c.depth % QUEUE_DEPTH = (c.wptr - c.rptr_sel) % QUEUE_DEPTH ∧
  (c.rptr_diff - c.rptr_sel) % QUEUE_DEPTH ≤ c.depth

/-- A run in which the writer passes the select-reader: 89 writes, 88
diff-advances, 3 select-advances, 3 writes, 3 diff-advances, then 87 writes
(saturating `depth`), 87 select-advances, 10 diff-advances, 3 select-advances. -/
def lappedRun : List Op :=
  List.replicate 89 (Op.nextPtr WRITE_POINTER) ++ List.replicate 88 (Op.nextPtr READ_DIFF_POINTER) ++
  List.replicate 3 (Op.nextPtr READ_SEL_POINTER) ++ List.replicate 3 (Op.nextPtr WRITE_POINTER) ++
  List.replicate 3 (Op.nextPtr READ_DIFF_POINTER) ++ List.replicate 87 (Op.nextPtr WRITE_POINTER) ++
  List.replicate 87 (Op.nextPtr READ_SEL_POINTER) ++ List.replicate 10 (Op.nextPtr READ_DIFF_POINTER) ++
  List.replicate 3 (Op.nextPtr READ_SEL_POINTER)

/-- The return values of `n` consecutive `nextPtr(type)` calls, first call first. -/
def advanceResults (Q : Int) (type : Int) (c : Cursors) : Nat → List Bool
  | 0 => []
  | n + 1 => (nextPtrAt Q type c).1 :: advanceResults Q type (nextPtrAt Q type c).2 n

/-- The store after consecutive `write_size_and_time` calls, one per (size,
timestamp) pair, on a store of capacity `Q`. -/
def writesAt (Q : Int) (st : Store) : List (Int × timespec) → Store
  | [] => st
  | w :: ws => writesAt Q (write_size_and_timeAt Q w.1 w.2 st).2 ws

/-- The calls `write_size_and_time(buf, size, ts)`, one per (size, timestamp) pair. -/
def writeOps (ws : List (Int × timespec)) : List Op :=
  ws.map fun w => Op.write_size_and_time w.1 w.2

/-- N writes, then N diff-advances, then N select-advances, N = `QUEUE_DEPTH`. -/
def fillThenDrain (ws : List (Int × timespec)) : List Op :=
  writeOps ws ++ List.replicate QUEUE_DEPTH.toNat (Op.nextPtr READ_DIFF_POINTER) ++
    List.replicate QUEUE_DEPTH.toNat (Op.nextPtr READ_SEL_POINTER)

/-- A frame store whose slots are all blank, for concrete evaluations. -/
def blankFrame : cbuff_struct_t :=
  { timestamp := { tv_sec := 0, tv_nsec := 0 }, usefulness := 0, size := 0,
    frame_count := 0, buffer := [] }

def blankStore : Store :=
  { cur := { wptr := 0, rptr_diff := 0, rptr_sel := 0, depth := 0 },
    frame_buffer := fun _ => blankFrame }

/-! ## Readers of `circular_buff.c`

A pointer into the frame store (`unsigned char *` to a payload, `cbuff_struct_t *`
to a record) is modelled by the index of the slot it points into; `none` is
`NULL`. -/

/-- The function `read_frame_ptr`: the returned pointer, the value of `*size`
after the call (`size` is its value before) and the store after the call. -/
def read_frame_ptr (type : Int) (size : Int) (st : Store) : Option Int × Int × Store :=
  let valid_args : Bool :=
    decide (type > START_OF_ENUM_PTR_TYPE ∧ type < END_OF_ENUM_PTR_TYPE)
  if valid_args = true ∧ st.cur.depth ≠ ZERO then
    let index0 : Int := 0
    let index1 : Int := if type = READ_DIFF_POINTER then st.cur.rptr_diff else index0
    let index : Int := if type = READ_SEL_POINTER then st.cur.rptr_sel else index1
    (some index, (st.frame_buffer index).size, st)
  else
    (none, size, st)

/-- The function `read_usefulness`. -/
def read_usefulness (type : Int) (st : Store) : Int :=
  let valid_args : Bool :=
    decide (type > START_OF_ENUM_PTR_TYPE ∧ type < END_OF_ENUM_PTR_TYPE)
  if valid_args = true ∧ st.cur.depth ≠ ZERO then
    let index0 : Int := 0
    let index1 : Int := if type = READ_DIFF_POINTER then st.cur.rptr_diff else index0
    let index : Int := if type = READ_SEL_POINTER then st.cur.rptr_sel else index1
    (st.frame_buffer index).usefulness
  else
    ERROR_READ_UFN

/-- The function `read_timestamp`: the return value and `*time` after the call
(`time` is its value before). -/
def read_timestamp (type : Int) (time : timespec) (st : Store) : Int × timespec :=
  let valid_args : Bool :=
    decide (type > START_OF_ENUM_PTR_TYPE ∧ type < END_OF_ENUM_PTR_TYPE)
  if valid_args = true ∧ st.cur.depth ≠ ZERO then
    let index0 : Int := 0
    let index1 : Int := if type = READ_DIFF_POINTER then st.cur.rptr_diff else index0
    let index : Int := if type = READ_SEL_POINTER then st.cur.rptr_sel else index1
    (0, { tv_sec := (st.frame_buffer index).timestamp.tv_sec,
          tv_nsec := (st.frame_buffer index).timestamp.tv_nsec })
  else
    (ERROR_READ_UFN, time)

/-- The function `read_cbuf_entry`: the address of the record at `rptr_sel`. -/
def read_cbuf_entry (st : Store) : Option Int :=
  some st.cur.rptr_sel

/-- Smallest value of the C type `int` (32 bits). -/
def INT_MIN : Int := -2147483648

/-- Largest value of the C type `int` (32 bits). -/
def INT_MAX : Int := 2147483647

/-- The millisecond value of a timestamp in exact arithmetic,
`(tv_sec * 10^9 + tv_nsec) / 10^6` truncated toward zero. -/
def exactMS (time : timespec) : Int :=
  Int.tdiv (time.tv_sec * 1000000000 + time.tv_nsec) 1000000

/-- A timestamp whose conversion by `getMSfromTimestamp` is defined in C: it is
normalised (`0 <= tv_nsec < 10^9`) and its millisecond value fits an `int`. -/
def Representable (time : timespec) : Prop :=
  0 ≤ time.tv_nsec ∧ time.tv_nsec < 1000000000 ∧
  INT_MIN ≤ exactMS time ∧ exactMS time ≤ INT_MAX

instance (time : timespec) : Decidable (Representable time) := by
  unfold Representable
  infer_instance

/-- The function `getMSfromTimestamp`,
`(double)tv_sec * 1000.0 + (double)tv_nsec / 1000000.0` converted to the return
type `int`.  For a `Representable` timestamp the `double` computation is off from
the exact value by less than `10^-6`, which cannot move it across an integer, so
the conversion yields `exactMS`.  When the millisecond value does not fit an `int`
the conversion is undefined in C; the model returns `INT_MIN`, the value the
x86-64 conversion instruction produces. -/
def getMSfromTimestamp (time : timespec) : Int :=
  if INT_MIN ≤ exactMS time ∧ exactMS time ≤ INT_MAX then exactMS time else INT_MIN

/-- The value of an `int` expression whose exact result is `x`: `x` itself when
it fits, otherwise `x` reduced modulo `2^32` into the range of `int` (signed
overflow is undefined in C; the machine arithmetic wraps). -/
def wrapInt (x : Int) : Int :=
  (x + 2147483648) % 4294967296 - 2147483648

/-! ## The hand-off queue of `writeback.c` -/

/-- Capacity of the hand-off queue (`#define MAX_FIFO_DEPTH (10)`). -/
def MAX_FIFO_DEPTH : Int := 10

/-- The queue record `fifo_queue_t`; `data` holds record pointers. -/
structure fifo_queue_t where
  data : Int → Option Int
  front : Int
  rear : Int
  count : Int

/-- The function `init_fifoQ`: `memset` of the whole record to zero. -/
def init_fifoQ (_q : fifo_queue_t) : fifo_queue_t :=
  { data := fun _ => none, front := 0, rear := 0, count := 0 }

/-- The function `push_frame_fifo`; C's `%` truncates toward zero. -/
def push_frame_fifo (element : Option Int) (q : fifo_queue_t) : Int × fifo_queue_t :=
  if q.count = MAX_FIFO_DEPTH then
    (-1, q)
  else
    let q1 : fifo_queue_t := { q with data := fun j => if j = q.rear then element else q.data j }
    let q2 : fifo_queue_t := { q1 with rear := Int.tmod (q1.rear + 1) MAX_FIFO_DEPTH }
    let q3 : fifo_queue_t := { q2 with count := q2.count + 1 }
    (0, q3)

/-- The function `pop_frame_fifo`. -/
def pop_frame_fifo (q : fifo_queue_t) : Option Int × fifo_queue_t :=
  if q.count = 0 then
    (none, q)
  else
    let ret := q.data q.front
    let q1 : fifo_queue_t := { q with front := Int.tmod (q.front + 1) MAX_FIFO_DEPTH }
    let q2 : fifo_queue_t := { q1 with count := q1.count - 1 }
    (ret, q2)

/-- One call on the hand-off queue. -/
inductive FifoCall where
  | push (element : Option Int)
  | pop

/-- What a call on the hand-off queue returns. -/
inductive FifoResult where
  | pushed (ret : Int)
  | popped (element : Option Int)
  deriving DecidableEq

/-- The return values of a sequence of calls on the array queue, first call first. -/
def fifoTrace (q : fifo_queue_t) : List FifoCall → List FifoResult
  | [] => []
  | .push e :: calls => .pushed (push_frame_fifo e q).1 :: fifoTrace (push_frame_fifo e q).2 calls
  | .pop :: calls => .popped (pop_frame_fifo q).1 :: fifoTrace (pop_frame_fifo q).2 calls

/-- The queue after pushing the given references in order. -/
def pushAll (q : fifo_queue_t) : List (Option Int) → fifo_queue_t
  | [] => q
  | e :: es => pushAll (push_frame_fifo e q).2 es

/-- Specification of the hand-off queue, following the spec's words: a FIFO of
frame references bounded at the capacity `M`, held as a list, oldest first.
`push` at capacity returns the full-indicator `-1` and changes nothing, otherwise
it appends and returns `0`. -/
def listPush (M : Nat) (element : Option Int) (l : List (Option Int)) :
    Int × List (Option Int) :=
  if l.length = M then (-1, l) else (0, l ++ [element])

/-- Specification of `pop`: the empty-indicator `NULL` on an empty queue,
otherwise the oldest reference, which is removed. -/
def listPop (l : List (Option Int)) : Option Int × List (Option Int) :=
  match l with
  | [] => (none, [])
  | e :: rest => (e, rest)

/-- The return values of a sequence of calls on the list queue. -/
def listTrace (M : Nat) (l : List (Option Int)) : List FifoCall → List FifoResult
  | [] => []
  | .push e :: calls => .pushed (listPush M e l).1 :: listTrace M (listPush M e l).2 calls
  | .pop :: calls => .popped (listPop l).1 :: listTrace M (listPop l).2 calls

/-- The array queue `q` holds exactly the references of the list `l`, oldest at
`front`. -/
def Holds (q : fifo_queue_t) (l : List (Option Int)) : Prop :=
  (0 ≤ q.front ∧ q.front < MAX_FIFO_DEPTH) ∧ (l.length : Int) ≤ MAX_FIFO_DEPTH ∧
  q.count = l.length ∧ q.rear = (q.front + q.count) % MAX_FIFO_DEPTH ∧
  ∀ i : Nat, i < l.length → l[i]? = some (q.data ((q.front + i) % MAX_FIFO_DEPTH))

/-! ## The difference filter and the selector of `differencing.c` -/

def FRAME_DIFF_THRESHOLD : Int := 20
def FRAMES_TO_SERVICE : Int := 5
def PIXEL_DIFFERENCE_THRESHOLD : Int := 300
def FRAME_USEFUL : Int := 1
def FRAME_NOT_USEFUL : Int := 0

/-- The macro `FRAME_SELECTION_TIME_MS`, `1000.0 / 10.0`, i.e. 100 ms. -/
def FRAME_SELECTION_TIME_MS : Int := 100

def FRAME_CAPTURE_COUNT : Int := 180

/-- The global `int offset = 10.0;`, which no statement of the program assigns. -/
def offset : Int := 10

/-- The globals the functions of `differencing.c` work on: the frame store, the
hand-off queue, and the file-scope variables of `differencing.c`, `main.c`
(`previous_frame`, `new_frame`) and `framecapture.c` (`garbage_frames`).
`frame_count` is an `unsigned int`, kept reduced modulo `2^32`. -/
structure Sys where
  store : Store
  fifo : fifo_queue_t
  frame_count : Int
  size : Int
  first_capture : Bool
  previous_frame : Option Int
  new_frame : Option Int
  new_ts : Int
  old_ts : Int
  temp_time : timespec
  garbage_frames : Int

/-- The `for` loop of `perform_diff` with `n` iterations to go, at pixel `pix`,
having counted `diff_count` so far.  A payload is the list of its leading bytes;
bytes past the end of the list read as 0.  The two `unsigned char` operands are
promoted to `int` before the subtraction, so the difference is signed. -/
def perform_diff_loop (new prev : List Nat) : Nat → Nat → Nat → Nat
  | 0, _, diff_count => diff_count
  | n + 1, pix, diff_count =>
    perform_diff_loop new prev n (pix + 1)
      (if (new.getD pix 0 : Int) - (prev.getD pix 0 : Int) > FRAME_DIFF_THRESHOLD then
        diff_count + 1
      else diff_count)

/-- The function `perform_diff` on two payloads. -/
def perform_diff (new prev : List Nat) (size : Int) : Int :=
  if size > MAX_BUFFER_LENGTH then
    -ERROR_BUFFER_SIZE
  else
    (perform_diff_loop new prev size.toNat 0 0 : Int)

/-- The call `perform_diff(new, prev, size)` through pointers into the store.
The call reads through its pointers exactly when the loop body runs, i.e. when
`0 < size <= MAX_BUFFER_LENGTH`; reading through `NULL` is undefined and has no
result (`none`). -/
def perform_diff_at (fb : Int → cbuff_struct_t) (new prev : Option Int) (size : Int) :
    Option Int :=
  if size > MAX_BUFFER_LENGTH ∨ size ≤ 0 then
    some (perform_diff [] [] size)
  else
    match new, prev with
    | some n, some p => some (perform_diff (fb n).buffer (fb p).buffer size)
    | _, _ => none

/-- The `while` loop of `differencing`, entered with `frame_count_limit = limit`;
returns `frame_count_limit` at loop exit and the globals. -/
def differencing_loop : Nat → Sys → Option (Nat × Sys)
  | 0, s =>
    let adv := nextPtr READ_DIFF_POINTER s.store.cur
    some (0, { s with store := { s.store with cur := adv.2 } })
  | limit + 1, s =>
    let adv := nextPtr READ_DIFF_POINTER s.store.cur
    let s1 : Sys := { s with store := { s.store with cur := adv.2 } }
    if adv.1 = false then
      some (limit + 1, s1)
    else
      let rd := read_frame_ptr READ_DIFF_POINTER s1.size s1.store
      let s2 : Sys := { s1 with new_frame := rd.1, size := rd.2.1 }
      match perform_diff_at s2.store.frame_buffer s2.new_frame s2.previous_frame s2.size with
      | none => none
      | some temp =>
        let st3 : Store :=
          if temp < PIXEL_DIFFERENCE_THRESHOLD then (write_usefulness temp s2.store).2
          else (write_usefulness FRAME_NOT_USEFUL s2.store).2
        let s4 : Sys := { s2 with store := st3, previous_frame := s2.new_frame }
        differencing_loop limit s4

/-- The function `differencing`: the return value and the globals after the
call, `none` if the call reads through a `NULL` pointer. -/
def differencing (s : Sys) : Option (Int × Sys) :=
  if s.garbage_frames = 0 then
    if s.first_capture = true then
      let rd := read_frame_ptr READ_DIFF_POINTER s.size s.store
      let s1 : Sys := { s with previous_frame := rd.1, size := rd.2.1 }
      let rt := read_timestamp READ_DIFF_POINTER s1.temp_time s1.store
      let s2 : Sys := { s1 with temp_time := rt.2 }
      let s3 : Sys := { s2 with old_ts := getMSfromTimestamp s2.temp_time }
      let adv := nextPtr READ_DIFF_POINTER s3.store.cur
      let s4 : Sys := { s3 with store := { s3.store with cur := adv.2 } }
      if adv.1 = false then
        some (-ERROR_NEXT_PTR, s4)
      else
        some (FRAMES_TO_SERVICE - (FRAMES_TO_SERVICE - 1), { s4 with first_capture := false })
    else
      match differencing_loop FRAMES_TO_SERVICE.toNat s with
      | none => none
      | some (limit, s1) => some (FRAMES_TO_SERVICE - limit, s1)
  else
    some (FRAMES_TO_SERVICE - FRAMES_TO_SERVICE, s)

/-- The `while` loop of `frame_select`, entered with `ret = 0`; `fuel` bounds
the number of evaluations of the loop condition, `none` when it runs out. -/
def frame_select_loop : Nat → Sys → Option (Int × Sys)
  | 0, _ => none
  | fuel + 1, s =>
    let adv := nextPtr READ_SEL_POINTER s.store.cur
    let s1 : Sys := { s with store := { s.store with cur := adv.2 } }
    if adv.1 ≠ false ∧ s1.frame_count ≤ FRAME_CAPTURE_COUNT then
      let rt := read_timestamp READ_SEL_POINTER s1.temp_time s1.store
      let s2 : Sys := { s1 with temp_time := rt.2 }
      let s3 : Sys := { s2 with new_ts := getMSfromTimestamp s2.temp_time }
      if s3.new_ts > s3.old_ts ∧
          wrapInt (s3.new_ts - s3.old_ts) > FRAME_SELECTION_TIME_MS - offset then
        let temp_diff := read_usefulness READ_SEL_POINTER s3.store
        if temp_diff > -1 then
          let st4 : Store := (write_framecount s3.frame_count s3.store).2
          let element := read_cbuf_entry st4
          let pushed := push_frame_fifo element s3.fifo
          some (1, { s3 with store := st4, fifo := pushed.2,
                             frame_count := (s3.frame_count + 1) % 2 ^ 32,
                             old_ts := s3.new_ts })
        else
          frame_select_loop fuel s3
      else
        frame_select_loop fuel s3
    else
      some (0, s1)

/-- The function `frame_select`: the return value and the globals after the call. -/
def frame_select (fuel : Nat) (s : Sys) : Option (Int × Sys) :=
  if s.first_capture = false then frame_select_loop fuel s else some (-1, s)

/-- A state of the globals for concrete evaluations: the given cursors, an
empty hand-off queue, baseline already captured at slot 0. -/
def sysAt (c : Cursors) (fb : Int → cbuff_struct_t) : Sys :=
  { store := { cur := c, frame_buffer := fb },
    fifo := { data := fun _ => none, front := 0, rear := 0, count := 0 },
    frame_count := 1, size := 0, first_capture := false, previous_frame := some 0,
    new_frame := none, new_ts := 0, old_ts := 0, temp_time := ⟨0, 0⟩, garbage_frames := 0 }

/-- Between `s` and `s'` no frame was selected: no record was stamped, the
hand-off queue, `frame_count` and `old_ts` are as before. -/
def NothingSelected (s s' : Sys) : Prop :=
  s'.store.frame_buffer = s.store.frame_buffer ∧ s'.fifo = s.fifo ∧
  s'.frame_count = s.frame_count ∧ s'.old_ts = s.old_ts

/-- Between `s` and `s'` exactly the slot under the select-reader of `s'` was
selected: it was stamped with the label `frame_count`, one push of its reference
was attempted, `frame_count` was incremented and `old_ts` set to the slot's time. -/
def OneSelected (s s' : Sys) : Prop :=
  s'.store.frame_buffer =
    setSlot s.store.frame_buffer s'.store.cur.rptr_sel
      (fun e => { e with frame_count := s.frame_count % 2 ^ 32 }) ∧
  s'.fifo = (push_frame_fifo (some s'.store.cur.rptr_sel) s.fifo).2 ∧
  s'.frame_count = (s.frame_count + 1) % 2 ^ 32 ∧ s'.old_ts = s'.new_ts

/-- The selection rule of the spec for a slot, relative to the time `old_ts` of
the last selected frame: more than 90 ms later and usefulness not negative. -/
def Selectable (old_ts : Int) (slot : cbuff_struct_t) : Prop :=
  getMSfromTimestamp slot.timestamp - old_ts > 90 ∧ slot.usefulness ≥ 0

instance (old_ts : Int) (slot : cbuff_struct_t) : Decidable (Selectable old_ts slot) := by
  unfold Selectable
  infer_instance

/-- Frame records for concrete evaluations: slot 1 holds a 300-byte frame of
bytes 255 stamped 1 s with usefulness `u`; every other slot holds a 300-byte
frame of bytes 0 stamped 0 s and unmarked. -/
def framesWith (u : Int) : Int → cbuff_struct_t :=
  fun j =>
    if j = 1 then
      { timestamp := ⟨1, 0⟩, usefulness := u, size := 300, frame_count := 0,
        buffer := List.replicate 300 255 }
    else
      { timestamp := ⟨0, 0⟩, usefulness := -20, size := 300, frame_count := 0,
        buffer := List.replicate 300 0 }

/-- Frame records with two-byte payloads for concrete evaluations: slot 1 holds
bytes 255, every other slot bytes 0; all unmarked and stamped 0 s. -/
def tinyFrames : Int → cbuff_struct_t :=
  fun j =>
    { timestamp := ⟨0, 0⟩, usefulness := -20, size := 2, frame_count := 0,
      buffer := if j = 1 then [255, 255] else [0, 0] }

/-- The hand-off queue after ten pushes into the empty queue. -/
def fullFifo : fifo_queue_t :=
  pushAll (init_fifoQ ⟨fun _ => none, 0, 0, 0⟩) (List.replicate 10 (some 5))

/-- The globals after `frame_select`, having advanced the cursors to `c1`,
selects the slot under the select-reader. -/
def selectSlot (s : Sys) (c1 : Cursors) : Sys :=
  { s with
    store :=
      { cur := c1,
        frame_buffer := setSlot s.store.frame_buffer c1.rptr_sel
          (fun e => { e with frame_count := s.frame_count % 2 ^ 32 }) },
    fifo := (push_frame_fifo (some c1.rptr_sel) s.fifo).2,
    frame_count := (s.frame_count + 1) % 2 ^ 32,
    temp_time := (s.store.frame_buffer c1.rptr_sel).timestamp,
    new_ts := getMSfromTimestamp (s.store.frame_buffer c1.rptr_sel).timestamp,
    old_ts := getMSfromTimestamp (s.store.frame_buffer c1.rptr_sel).timestamp }

/-- The globals after `frame_select`, having advanced the cursors to `c1`, looks
at the slot under the select-reader and passes it over. -/
def skipSlot (s : Sys) (c1 : Cursors) : Sys :=
  { s with
    store := { s.store with cur := c1 },
    temp_time := (s.store.frame_buffer c1.rptr_sel).timestamp,
    new_ts := getMSfromTimestamp (s.store.frame_buffer c1.rptr_sel).timestamp }

/-- From `c` to `c'` only the diff-reader moved, by at most `k` slots forward
(modulo `QUEUE_DEPTH`), and it still indexes the array. -/
def DiffAdvanced (k : Int) (c c' : Cursors) : Prop :=
  c'.wptr = c.wptr ∧ c'.rptr_sel = c.rptr_sel ∧ c'.depth = c.depth ∧
  (0 ≤ c'.rptr_diff ∧ c'.rptr_diff < QUEUE_DEPTH) ∧
  (c'.rptr_diff - c.rptr_diff) % QUEUE_DEPTH ≤ k

/-- The number of pixel positions below `size` at which the byte of `new` exceeds
the byte of `prev` by more than `FRAME_DIFF_THRESHOLD`. -/
def risenPixels (new prev : List Nat) (size : Int) : Nat :=
  (List.range size.toNat).countP fun i =>
    decide ((new.getD i 0 : Int) - (prev.getD i 0 : Int) > FRAME_DIFF_THRESHOLD)

/-- The `write_usefulness` calls the loop of `differencing` makes when entered with
`frame_count_limit = limit`, in order, each as the slot written and the value. -/
def differencing_marks : Nat → Sys → List (Int × Int)
  | 0, _ => []
  | limit + 1, s =>
    let adv := nextPtr READ_DIFF_POINTER s.store.cur
    let s1 : Sys := { s with store := { s.store with cur := adv.2 } }
    if adv.1 = false then
      []
    else
      let rd := read_frame_ptr READ_DIFF_POINTER s1.size s1.store
      let s2 : Sys := { s1 with new_frame := rd.1, size := rd.2.1 }
      match perform_diff_at s2.store.frame_buffer s2.new_frame s2.previous_frame s2.size with
      | none => []
      | some temp =>
        let usefulness : Int :=
          if temp < PIXEL_DIFFERENCE_THRESHOLD then temp else FRAME_NOT_USEFUL
        let s4 : Sys :=
          { s2 with store := (write_usefulness usefulness s2.store).2,
                    previous_frame := s2.new_frame }
        (s2.store.cur.rptr_diff, usefulness) :: differencing_marks limit s4

/-- The frame records after the given usefulness writes, first write first. -/
def applyMarks (fb : Int → cbuff_struct_t) : List (Int × Int) → Int → cbuff_struct_t
  | [] => fb
  | m :: marks => applyMarks (setSlot fb m.1 fun e => { e with usefulness := m.2 }) marks

/-- Frame records with a frame in slot 1 whose size is one byte more than the
payload capacity. -/
def oversizeFrames : Int → cbuff_struct_t :=
  fun j =>
    { timestamp := ⟨0, 0⟩, usefulness := -20,
      size := if j = 1 then MAX_BUFFER_LENGTH + 1 else 2, frame_count := 0,
      buffer := [0, 0] }

/-! ## Single calls of `nextPtr` -/

/-- A role argument outside the three roles makes `nextPtr` return false. -/
theorem nextPtr_invalid_type (type : Int) (s : Cursors) (h1 : type ≠ WRITE_POINTER)
    (h2 : type ≠ READ_DIFF_POINTER) (h3 : type ≠ READ_SEL_POINTER) :
    nextPtr type s = (false, s) := by
  simp [nextPtr, nextPtrAt, h1, h2, h3]

/-- Closed form of a writer advance. -/
theorem nextPtr_write_eq (s : Cursors) :
    nextPtr WRITE_POINTER s =
      (true, { wptr := if s.wptr = 89 then 0 else s.wptr + 1, rptr_diff := s.rptr_diff,
               rptr_sel := s.rptr_sel,
               depth := if s.depth < 90 then s.depth + 1 else s.depth }) := by
  simp only [nextPtr, nextPtrAt, QUEUE_DEPTH, ONE, ZERO, if_true]
  norm_num
  split_ifs <;> rfl

/-- Closed form of a diff-reader advance. -/
theorem nextPtr_diff_eq (s : Cursors) :
    nextPtr READ_DIFF_POINTER s =
      if (s.rptr_diff < s.wptr - 1 ∧ 90 ≠ s.depth) ∨ (s.rptr_diff > s.wptr ∧ s.wptr ≠ 0) then
        (true, { wptr := s.wptr, rptr_diff := if s.rptr_diff = 89 then 0 else s.rptr_diff + 1,
                 rptr_sel := s.rptr_sel, depth := s.depth })
      else (false, s) := by
  simp only [nextPtr, nextPtrAt, QUEUE_DEPTH, ONE, ZERO, READ_DIFF_POINTER, WRITE_POINTER]
  norm_num
  split_ifs <;> rfl

/-- Closed form of a select-reader advance. -/
theorem nextPtr_sel_eq (s : Cursors) :
    nextPtr READ_SEL_POINTER s =
      if (s.rptr_sel < s.rptr_diff - 1 ∧ 90 ≠ s.depth) ∨
          (s.rptr_sel > s.rptr_diff ∧ s.rptr_diff ≠ 0) then
        (true, { wptr := s.wptr, rptr_diff := s.rptr_diff,
                 rptr_sel := if s.rptr_sel = 89 then 0 else s.rptr_sel + 1,
                 depth := if s.depth > 0 then s.depth - 1 else s.depth })
      else (false, s) := by
  simp only [nextPtr, nextPtrAt, QUEUE_DEPTH, ONE, ZERO, READ_SEL_POINTER, READ_DIFF_POINTER,
    WRITE_POINTER]
  norm_num
  split_ifs <;> rfl

/-- C3: in a state with `0 <= wptr < QUEUE_DEPTH` and `0 <= depth <= QUEUE_DEPTH`,
`nextPtr(WRITE_POINTER)` returns true, moves `wptr` to `(wptr + 1) mod QUEUE_DEPTH`,
sets `depth` to `min(depth + 1, QUEUE_DEPTH)` and leaves both read cursors alone. -/
theorem nextPtr_write_advances (s : Cursors)
    (hw : 0 ≤ s.wptr ∧ s.wptr < QUEUE_DEPTH) (hd : 0 ≤ s.depth ∧ s.depth ≤ QUEUE_DEPTH) :
    (nextPtr WRITE_POINTER s).1 = true ∧
    (nextPtr WRITE_POINTER s).2.wptr = (s.wptr + 1) % QUEUE_DEPTH ∧
    (nextPtr WRITE_POINTER s).2.depth = min (s.depth + 1) QUEUE_DEPTH ∧
    (nextPtr WRITE_POINTER s).2.rptr_diff = s.rptr_diff ∧
    (nextPtr WRITE_POINTER s).2.rptr_sel = s.rptr_sel := by
  obtain ⟨hw0, hw1⟩ := hw
  obtain ⟨hd0, hd1⟩ := hd
  simp only [QUEUE_DEPTH] at hw1 hd1
  rw [nextPtr_write_eq]
  simp only [QUEUE_DEPTH]
  refine ⟨trivial, ?_, ?_, trivial, trivial⟩
  · split_ifs <;> omega
  · split_ifs <;> omega

theorem nextPtr_write_advances_witness :
    (nextPtr WRITE_POINTER ⟨89, 4, 2, 90⟩).1 = true ∧
    (nextPtr WRITE_POINTER ⟨89, 4, 2, 90⟩).2.wptr = (89 + 1) % QUEUE_DEPTH ∧
    (nextPtr WRITE_POINTER ⟨89, 4, 2, 90⟩).2.depth = min (90 + 1) QUEUE_DEPTH ∧
    (nextPtr WRITE_POINTER ⟨89, 4, 2, 90⟩).2.rptr_diff = 4 ∧
    (nextPtr WRITE_POINTER ⟨89, 4, 2, 90⟩).2.rptr_sel = 2 :=
  nextPtr_write_advances ⟨89, 4, 2, 90⟩ (by decide) (by decide)

/-- C4: whenever `nextPtr` returns false, whatever the role argument, the four
globals `wptr`, `rptr_diff`, `rptr_sel` and `depth` are unchanged. -/
theorem nextPtr_false_unchanged (type : Int) (s : Cursors)
    (h : (nextPtr type s).1 = false) : (nextPtr type s).2 = s := by
  revert h
  simp only [nextPtr, nextPtrAt]
  split_ifs <;> simp

theorem nextPtr_false_unchanged_witness :
    (nextPtr READ_SEL_POINTER ⟨5, 3, 3, 2⟩).1 = false ∧
    (nextPtr READ_SEL_POINTER ⟨5, 3, 3, 2⟩).2 = ⟨5, 3, 3, 2⟩ :=
  ⟨by decide, nextPtr_false_unchanged READ_SEL_POINTER ⟨5, 3, 3, 2⟩ (by decide)⟩

/-- A reader standing on the cursor ahead of it cannot advance. -/
theorem reader_blocked_of_eq (s : Cursors) :
    (s.rptr_diff = s.wptr → (nextPtr READ_DIFF_POINTER s).1 = false) ∧
    (s.rptr_sel = s.rptr_diff → (nextPtr READ_SEL_POINTER s).1 = false) := by
  constructor
  · intro h
    have hc : ¬ ((s.rptr_diff < s.wptr - 1 ∧ 90 ≠ s.depth) ∨
        (s.rptr_diff > s.wptr ∧ s.wptr ≠ 0)) := by omega
    rw [nextPtr_diff_eq, if_neg hc]
  · intro h
    have hc : ¬ ((s.rptr_sel < s.rptr_diff - 1 ∧ 90 ≠ s.depth) ∨
        (s.rptr_sel > s.rptr_diff ∧ s.rptr_diff ≠ 0)) := by omega
    rw [nextPtr_sel_eq, if_neg hc]

/-- C5: in every state, `nextPtr(READ_DIFF_POINTER)` returns false when
`rptr_diff == wptr`, and `nextPtr(READ_SEL_POINTER)` returns false when
`rptr_sel == rptr_diff`, whatever `depth` is. -/
theorem nextPtr_reader_blocked_at_leader (s : Cursors) :
    (s.rptr_diff = s.wptr → (nextPtr READ_DIFF_POINTER s).1 = false) ∧
    (s.rptr_sel = s.rptr_diff → (nextPtr READ_SEL_POINTER s).1 = false) :=
  reader_blocked_of_eq s

theorem nextPtr_reader_blocked_at_leader_witness :
    (nextPtr READ_DIFF_POINTER ⟨7, 7, 3, 40⟩).1 = false ∧
    (nextPtr READ_SEL_POINTER ⟨9, 3, 3, 40⟩).1 = false :=
  ⟨(nextPtr_reader_blocked_at_leader ⟨7, 7, 3, 40⟩).1 (by decide),
   (nextPtr_reader_blocked_at_leader ⟨9, 3, 3, 40⟩).2 (by decide)⟩

/-- C7: a successful reader advance moves only that reader's cursor, one slot
forward modulo `QUEUE_DEPTH`.  For the select-reader (cursor in range, depth
not negative) `rptr_sel` becomes `(rptr_sel + 1) mod QUEUE_DEPTH`, `depth`
becomes `max(depth - 1, 0)` and `wptr`, `rptr_diff` are unchanged; for the
diff-reader (cursor in range) `rptr_diff` becomes
`(rptr_diff + 1) mod QUEUE_DEPTH` and `wptr`, `rptr_sel`, `depth` are unchanged. -/
theorem nextPtr_reader_success_frame (s : Cursors) :
    ((nextPtr READ_SEL_POINTER s).1 = true →
      0 ≤ s.rptr_sel ∧ s.rptr_sel < QUEUE_DEPTH → 0 ≤ s.depth →
      (nextPtr READ_SEL_POINTER s).2 =
        { wptr := s.wptr, rptr_diff := s.rptr_diff,
          rptr_sel := (s.rptr_sel + 1) % QUEUE_DEPTH, depth := max (s.depth - 1) 0 }) ∧
    ((nextPtr READ_DIFF_POINTER s).1 = true →
      0 ≤ s.rptr_diff ∧ s.rptr_diff < QUEUE_DEPTH →
      (nextPtr READ_DIFF_POINTER s).2 =
        { wptr := s.wptr, rptr_diff := (s.rptr_diff + 1) % QUEUE_DEPTH,
          rptr_sel := s.rptr_sel, depth := s.depth }) := by
  constructor
  · intro h ⟨h0, h1⟩ hd
    revert h
    simp only [QUEUE_DEPTH] at h1
    rw [nextPtr_sel_eq]
    simp only [QUEUE_DEPTH]
    split_ifs <;> simp <;> omega
  · intro h ⟨h0, h1⟩
    revert h
    simp only [QUEUE_DEPTH] at h1
    rw [nextPtr_diff_eq]
    simp only [QUEUE_DEPTH]
    split_ifs <;> simp <;> omega

theorem nextPtr_reader_success_frame_witness :
    (nextPtr READ_SEL_POINTER ⟨3, 1, 89, 5⟩).2 =
        { wptr := 3, rptr_diff := 1, rptr_sel := (89 + 1) % QUEUE_DEPTH, depth := max (5 - 1) 0 } ∧
    (nextPtr READ_DIFF_POINTER ⟨3, 89, 50, 5⟩).2 =
        { wptr := 3, rptr_diff := (89 + 1) % QUEUE_DEPTH, rptr_sel := 50, depth := 5 } :=
  ⟨(nextPtr_reader_success_frame ⟨3, 1, 89, 5⟩).1 (by decide) (by decide) (by decide),
   (nextPtr_reader_success_frame ⟨3, 89, 50, 5⟩).2 (by decide) (by decide)⟩

/-! ## `write_size_and_time` -/

/-- C10: in a state with `0 <= wptr < QUEUE_DEPTH`, `write_size_and_time(buf, size, ts)`
returns true; afterwards the slot at the old `wptr` holds the timestamp `ts`, the
size `size` and usefulness `-20`, its payload and `frame_count` are unchanged, every
other slot is unchanged, and the cursors are those after `nextPtr(WRITE_POINTER)`. -/
theorem write_size_and_time_commits (size : Int) (ts : timespec) (st : Store)
    (_hw : 0 ≤ st.cur.wptr ∧ st.cur.wptr < QUEUE_DEPTH) :
    (write_size_and_time size ts st).1 = true ∧
    ((write_size_and_time size ts st).2.frame_buffer st.cur.wptr).timestamp = ts ∧
    ((write_size_and_time size ts st).2.frame_buffer st.cur.wptr).size = size ∧
    ((write_size_and_time size ts st).2.frame_buffer st.cur.wptr).usefulness = -20 ∧
    ((write_size_and_time size ts st).2.frame_buffer st.cur.wptr).buffer =
      (st.frame_buffer st.cur.wptr).buffer ∧
    ((write_size_and_time size ts st).2.frame_buffer st.cur.wptr).frame_count =
      (st.frame_buffer st.cur.wptr).frame_count ∧
    (∀ j : Int, j ≠ st.cur.wptr →
      (write_size_and_time size ts st).2.frame_buffer j = st.frame_buffer j) ∧
    (write_size_and_time size ts st).2.cur = (nextPtr WRITE_POINTER st.cur).2 := by
  refine ⟨rfl, ?_, ?_, ?_, ?_, ?_, ?_, rfl⟩ <;>
    simp [write_size_and_time, write_size_and_timeAt, setSlot]
  intro j hj
  simp [hj]

theorem write_size_and_time_commits_witness :
    (write_size_and_time 640 ⟨12, 500⟩ blankStore).1 = true ∧
    ((write_size_and_time 640 ⟨12, 500⟩ blankStore).2.frame_buffer 0).timestamp = ⟨12, 500⟩ ∧
    ((write_size_and_time 640 ⟨12, 500⟩ blankStore).2.frame_buffer 0).size = 640 ∧
    ((write_size_and_time 640 ⟨12, 500⟩ blankStore).2.frame_buffer 0).usefulness = -20 ∧
    ((write_size_and_time 640 ⟨12, 500⟩ blankStore).2.frame_buffer 0).buffer = [] ∧
    ((write_size_and_time 640 ⟨12, 500⟩ blankStore).2.frame_buffer 0).frame_count = 0 ∧
    (∀ j : Int, j ≠ 0 →
      (write_size_and_time 640 ⟨12, 500⟩ blankStore).2.frame_buffer j = blankFrame) ∧
    (write_size_and_time 640 ⟨12, 500⟩ blankStore).2.cur = ⟨1, 0, 0, 1⟩ :=
  write_size_and_time_commits 640 ⟨12, 500⟩ blankStore (by decide)

/-! ## Runs: reduction to the cursor globals -/

/-- After `reset_queue()` all four globals are zero. -/
theorem afterReset_cur (st0 : Store) :
    (afterReset st0).cur = { wptr := 0, rptr_diff := 0, rptr_sel := 0, depth := 0 } := rfl

/-- Every call acts on the cursor globals as the `nextPtr` call of its role. -/
theorem step_cur (op : Op) (st : Store) : (step op st).cur = (nextPtr op.role st.cur).2 := by
  cases op with
  | nextPtr type => rfl
  | write_size_and_time size ts => rfl
  | write_usefulness u => rfl
  | write_framecount fc =>
    simp [step, write_framecount, Op.role, nextPtr, nextPtrAt, START_OF_ENUM_PTR_TYPE,
      WRITE_POINTER, READ_DIFF_POINTER, READ_SEL_POINTER]

theorem run_cur (ops : List Op) (st : Store) :
    (run st ops).cur = runCur st.cur (ops.map Op.role) := by
  induction ops generalizing st with
  | nil => rfl
  | cons op ops ih => simp [run, runCur, ih, step_cur]

/-- Case analysis on one `nextPtr` call: a property of the cursors holds after
the call as soon as it holds in each of the four possible outcomes. -/
theorem nextPtr_cases (P : Cursors → Prop) (type : Int) (c : Cursors)
    (hsame : P c)
    (hwrite : type = WRITE_POINTER →
      P { wptr := if c.wptr = 89 then 0 else c.wptr + 1, rptr_diff := c.rptr_diff,
          rptr_sel := c.rptr_sel, depth := if c.depth < 90 then c.depth + 1 else c.depth })
    (hdiff : (c.rptr_diff < c.wptr - 1 ∧ 90 ≠ c.depth) ∨ (c.rptr_diff > c.wptr ∧ c.wptr ≠ 0) →
      P { wptr := c.wptr, rptr_diff := if c.rptr_diff = 89 then 0 else c.rptr_diff + 1,
          rptr_sel := c.rptr_sel, depth := c.depth })
    (hsel : (c.rptr_sel < c.rptr_diff - 1 ∧ 90 ≠ c.depth) ∨
        (c.rptr_sel > c.rptr_diff ∧ c.rptr_diff ≠ 0) →
      P { wptr := c.wptr, rptr_diff := c.rptr_diff,
          rptr_sel := if c.rptr_sel = 89 then 0 else c.rptr_sel + 1,
          depth := if c.depth > 0 then c.depth - 1 else c.depth }) :
    P (nextPtr type c).2 := by
  by_cases h1 : type = WRITE_POINTER
  · subst h1
    rw [nextPtr_write_eq]
    exact hwrite rfl
  by_cases h2 : type = READ_DIFF_POINTER
  · subst h2
    rw [nextPtr_diff_eq]
    by_cases h : (c.rptr_diff < c.wptr - 1 ∧ 90 ≠ c.depth) ∨ (c.rptr_diff > c.wptr ∧ c.wptr ≠ 0)
    · rw [if_pos h]
      exact hdiff h
    · rw [if_neg h]
      exact hsame
  by_cases h3 : type = READ_SEL_POINTER
  · subst h3
    rw [nextPtr_sel_eq]
    by_cases h : (c.rptr_sel < c.rptr_diff - 1 ∧ 90 ≠ c.depth) ∨
        (c.rptr_sel > c.rptr_diff ∧ c.rptr_diff ≠ 0)
    · rw [if_pos h]
      exact hsel h
    · rw [if_neg h]
      exact hsame
  rw [nextPtr_invalid_type type c h1 h2 h3]
  exact hsame

/-- A property of the store that every allowed call preserves holds after
every allowed sequence of calls. -/
theorem run_invariant (ok : Store → Op → Bool) (P : Store → Prop)
    (hstep : ∀ st op, P st → ok st op = true → P (step op st)) :
    ∀ (ops : List Op) (st : Store), P st → allowed ok st ops = true → P (run st ops) := by
  intro ops
  induction ops with
  | nil => intro st h _; exact h
  | cons op ops ih =>
    intro st h hall
    simp only [allowed, Bool.and_eq_true] at hall
    exact ih (step op st) (hstep st op h hall.1) hall.2

/-- With no restriction on the calls every sequence is allowed. -/
theorem allowed_always (ops : List Op) (st : Store) : allowed (fun _ _ => true) st ops = true := by
  induction ops generalizing st with
  | nil => rfl
  | cons op ops ih => simp [allowed, ih]

/-! ## Invariants of the store -/

/-- C1: in every state reachable from `reset_queue()` by any sequence of
`nextPtr`, `write_size_and_time`, `write_usefulness` (and `write_framecount`)
calls, `0 <= depth <= QUEUE_DEPTH`. -/
theorem depth_within_bounds (st0 : Store) (ops : List Op) :
    0 ≤ (run (afterReset st0) ops).cur.depth ∧
    (run (afterReset st0) ops).cur.depth ≤ QUEUE_DEPTH := by
  have key := run_invariant (fun _ _ => true)
    (fun st => 0 ≤ st.cur.depth ∧ st.cur.depth ≤ QUEUE_DEPTH)
    (by
      intro st op h _
      rw [step_cur]
      simp only [QUEUE_DEPTH] at h ⊢
      apply nextPtr_cases (fun c => 0 ≤ c.depth ∧ c.depth ≤ 90)
      · exact h
      · intro _; dsimp only; split_ifs <;> omega
      · intro _; exact h
      · intro _; dsimp only; split_ifs <;> omega)
    ops (afterReset st0) (by simp [afterReset, reset_queue, ZERO, QUEUE_DEPTH])
  exact key (allowed_always ops _)

/-- C2, as stated, fails: two writes, one diff-advance and 88 more writes after
`reset_queue()` leave `wptr = 0`, `rptr_diff = 1`, `rptr_sel = 0`, where walking
forward from `rptr_sel` meets `wptr` before `rptr_diff`. -/
theorem circular_order_broken_by_writer :
    ¬ CircularOrder (run (afterReset blankStore)
        (List.replicate 2 (Op.nextPtr WRITE_POINTER) ++ [Op.nextPtr READ_DIFF_POINTER] ++
          List.replicate 88 (Op.nextPtr WRITE_POINTER))).cur := by
  decide!

/-- One call that does not overrun the select-reader keeps the cursors in range
and in circular order. -/
theorem selectorSafe_step (st : Store) (op : Op)
    (h : CursorsInRange st.cur ∧ CircularOrder st.cur) (hok : selectorSafe st op = true) :
    CursorsInRange (step op st).cur ∧ CircularOrder (step op st).cur := by
  rw [step_cur]
  obtain ⟨⟨hw, hd, hs⟩, ho⟩ := h
  simp only [CircularOrder, QUEUE_DEPTH] at hw hd hs ho
  apply nextPtr_cases (fun c => CursorsInRange c ∧ CircularOrder c)
  · exact ⟨⟨hw, hd, hs⟩, ho⟩
  · intro hrole
    have hg : ¬ (st.cur.wptr + 1) % 90 = st.cur.rptr_sel ∨
        st.cur.rptr_sel = st.cur.rptr_diff := by
      simpa [selectorSafe, Op.isWrite, hrole, overrunsSelector, QUEUE_DEPTH] using hok
    simp only [CursorsInRange, CircularOrder, QUEUE_DEPTH]
    split_ifs <;> omega
  · intro hc
    simp only [CursorsInRange, CircularOrder, QUEUE_DEPTH]
    split_ifs <;> omega
  · intro hc
    simp only [CursorsInRange, CircularOrder, QUEUE_DEPTH]
    split_ifs <;> omega

/-- C2 (amended): in every state reachable from `reset_queue()` by a sequence of
calls in which no writer advance moves `wptr` onto `rptr_sel` while
`rptr_sel != rptr_diff`, the circular ordering select_read <= diff_read <= write
holds: `(rptr_diff - rptr_sel) mod QUEUE_DEPTH <= (wptr - rptr_sel) mod QUEUE_DEPTH`. -/
theorem circular_order_without_selector_overrun (st0 : Store) (ops : List Op)
    (h : allowed selectorSafe (afterReset st0) ops = true) :
    CircularOrder (run (afterReset st0) ops).cur :=
  (run_invariant selectorSafe (fun st => CursorsInRange st.cur ∧ CircularOrder st.cur)
    selectorSafe_step ops (afterReset st0)
    (by simp only [afterReset_cur]; simp [CursorsInRange, CircularOrder, QUEUE_DEPTH]) h).2

theorem circular_order_without_selector_overrun_witness :
    allowed selectorSafe (afterReset blankStore)
      [Op.write_size_and_time 640 ⟨1, 0⟩, Op.write_size_and_time 640 ⟨1, 5⟩,
       Op.nextPtr WRITE_POINTER, Op.write_usefulness 7, Op.nextPtr READ_DIFF_POINTER,
       Op.nextPtr READ_SEL_POINTER] = true ∧
    CircularOrder (run (afterReset blankStore)
      [Op.write_size_and_time 640 ⟨1, 0⟩, Op.write_size_and_time 640 ⟨1, 5⟩,
       Op.nextPtr WRITE_POINTER, Op.write_usefulness 7, Op.nextPtr READ_DIFF_POINTER,
       Op.nextPtr READ_SEL_POINTER]).cur :=
  ⟨by decide, circular_order_without_selector_overrun blankStore _ (by decide)⟩

/-- C6, as stated, fails: after the run `lappedRun` from `reset_queue()`, in which
the writer laps the select-reader and `depth` saturates, `depth` is 0 and yet both
reader advances succeed. -/
theorem reader_advances_at_zero_depth :
    (run (afterReset blankStore) lappedRun).cur.depth = 0 ∧
    (nextPtr READ_DIFF_POINTER (run (afterReset blankStore) lappedRun).cur).1 = true ∧
    (nextPtr READ_SEL_POINTER (run (afterReset blankStore) lappedRun).cur).1 = true := by
  decide!

/-- One call that is not a write into a full store keeps `DepthTracksCursors`. -/
theorem storeNotFull_step (st : Store) (op : Op)
    (h : DepthTracksCursors st.cur) (hok : storeNotFull st op = true) :
    DepthTracksCursors (step op st).cur := by
  rw [step_cur]
  obtain ⟨⟨hw, hd, hs⟩, hdep, hcong, hle⟩ := h
  simp only [QUEUE_DEPTH] at hw hd hs hdep hcong hle
  apply nextPtr_cases DepthTracksCursors
  · exact ⟨⟨hw, hd, hs⟩, hdep, hcong, hle⟩
  · intro hrole
    have hg : st.cur.depth < 90 := by
      simpa [storeNotFull, Op.isWrite, hrole, QUEUE_DEPTH] using hok
    simp only [DepthTracksCursors, CursorsInRange, QUEUE_DEPTH]
    split_ifs <;> omega
  · intro hc
    simp only [DepthTracksCursors, CursorsInRange, QUEUE_DEPTH]
    split_ifs <;> omega
  · intro hc
    simp only [DepthTracksCursors, CursorsInRange, QUEUE_DEPTH]
    split_ifs <;> omega

/-- C6 (amended): in every state reachable from `reset_queue()` by a sequence of
calls in which the writer never advances into a full store (`depth == QUEUE_DEPTH`),
a reader advance succeeds only if there is unconsumed depth for that reader.  If
`nextPtr(READ_DIFF_POINTER)` returns true then `depth` exceeds the lead of the
diff-reader over the select-reader by at least 2 (at least two of the `depth`
unconsumed slots lie ahead of the diff-reader); if `nextPtr(READ_SEL_POINTER)`
returns true then `depth` exceeds the lead of the writer over the diff-reader by
at least 2 (at least two of the `depth` unconsumed slots lie behind the
diff-reader); in both cases `depth >= 2`.  In particular, if `depth == 0` then both
calls return false. -/
theorem readers_gated_on_depth (st0 : Store) (ops : List Op)
    (h : allowed storeNotFull (afterReset st0) ops = true) :
    ((nextPtr READ_DIFF_POINTER (run (afterReset st0) ops).cur).1 = true →
      2 ≤ (run (afterReset st0) ops).cur.depth ∧
      ((run (afterReset st0) ops).cur.rptr_diff - (run (afterReset st0) ops).cur.rptr_sel)
        % QUEUE_DEPTH + 2 ≤ (run (afterReset st0) ops).cur.depth) ∧
    ((nextPtr READ_SEL_POINTER (run (afterReset st0) ops).cur).1 = true →
      2 ≤ (run (afterReset st0) ops).cur.depth ∧
      ((run (afterReset st0) ops).cur.wptr - (run (afterReset st0) ops).cur.rptr_diff)
        % QUEUE_DEPTH + 2 ≤ (run (afterReset st0) ops).cur.depth) ∧
    ((run (afterReset st0) ops).cur.depth = 0 →
      (nextPtr READ_DIFF_POINTER (run (afterReset st0) ops).cur).1 = false ∧
      (nextPtr READ_SEL_POINTER (run (afterReset st0) ops).cur).1 = false) := by
  have hinv := run_invariant storeNotFull (fun st => DepthTracksCursors st.cur)
    storeNotFull_step ops (afterReset st0)
    (by simp only [afterReset_cur]; simp [DepthTracksCursors, CursorsInRange, QUEUE_DEPTH]) h
  obtain ⟨⟨hw, hdf, hs⟩, hdep, hcong, hle⟩ := hinv
  simp only [QUEUE_DEPTH] at hw hdf hs hdep hcong hle ⊢
  refine ⟨?_, ?_, ?_⟩
  · intro hadv
    by_cases hc : ((run (afterReset st0) ops).cur.rptr_diff <
          (run (afterReset st0) ops).cur.wptr - 1 ∧ 90 ≠ (run (afterReset st0) ops).cur.depth) ∨
        ((run (afterReset st0) ops).cur.rptr_diff > (run (afterReset st0) ops).cur.wptr ∧
          (run (afterReset st0) ops).cur.wptr ≠ 0)
    · omega
    · rw [nextPtr_diff_eq, if_neg hc] at hadv
      simp at hadv
  · intro hadv
    by_cases hc : ((run (afterReset st0) ops).cur.rptr_sel <
          (run (afterReset st0) ops).cur.rptr_diff - 1 ∧
          90 ≠ (run (afterReset st0) ops).cur.depth) ∨
        ((run (afterReset st0) ops).cur.rptr_sel > (run (afterReset st0) ops).cur.rptr_diff ∧
          (run (afterReset st0) ops).cur.rptr_diff ≠ 0)
    · omega
    · rw [nextPtr_sel_eq, if_neg hc] at hadv
      simp at hadv
  · intro hd
    have e1 : (run (afterReset st0) ops).cur.rptr_diff = (run (afterReset st0) ops).cur.wptr := by
      omega
    have e2 : (run (afterReset st0) ops).cur.rptr_sel =
        (run (afterReset st0) ops).cur.rptr_diff := by
      omega
    exact ⟨(reader_blocked_of_eq _).1 e1, (reader_blocked_of_eq _).2 e2⟩

theorem readers_gated_on_depth_witness :
    allowed storeNotFull (afterReset blankStore)
      (List.replicate 5 (Op.nextPtr WRITE_POINTER) ++
        List.replicate 3 (Op.nextPtr READ_DIFF_POINTER)) = true ∧
    (nextPtr READ_DIFF_POINTER (run (afterReset blankStore)
      (List.replicate 5 (Op.nextPtr WRITE_POINTER) ++
        List.replicate 3 (Op.nextPtr READ_DIFF_POINTER))).cur).1 = true ∧
    (run (afterReset blankStore)
      (List.replicate 5 (Op.nextPtr WRITE_POINTER) ++
        List.replicate 3 (Op.nextPtr READ_DIFF_POINTER))).cur = ⟨5, 3, 0, 5⟩ ∧
    (2 ≤ (run (afterReset blankStore)
      (List.replicate 5 (Op.nextPtr WRITE_POINTER) ++
        List.replicate 3 (Op.nextPtr READ_DIFF_POINTER))).cur.depth ∧
      ((run (afterReset blankStore)
        (List.replicate 5 (Op.nextPtr WRITE_POINTER) ++
          List.replicate 3 (Op.nextPtr READ_DIFF_POINTER))).cur.rptr_diff -
        (run (afterReset blankStore)
          (List.replicate 5 (Op.nextPtr WRITE_POINTER) ++
            List.replicate 3 (Op.nextPtr READ_DIFF_POINTER))).cur.rptr_sel) % QUEUE_DEPTH + 2 ≤
        (run (afterReset blankStore)
          (List.replicate 5 (Op.nextPtr WRITE_POINTER) ++
            List.replicate 3 (Op.nextPtr READ_DIFF_POINTER))).cur.depth) :=
  ⟨by decide, by decide, by decide,
    (readers_gated_on_depth blankStore
      (List.replicate 5 (Op.nextPtr WRITE_POINTER) ++
        List.replicate 3 (Op.nextPtr READ_DIFF_POINTER)) (by decide)).1 (by decide)⟩

/-! ## Scenarios -/

/-- C8, as stated, fails on the code (`QUEUE_DEPTH = 90`): after `reset_queue()` and
three `write_size_and_time` calls the results of four `nextPtr(READ_DIFF_POINTER)`
calls are not true, true, true, false. -/
theorem scenarioA_third_advance_fails :
    advanceResults QUEUE_DEPTH READ_DIFF_POINTER
      (writesAt QUEUE_DEPTH (afterReset blankStore)
        [(640, ⟨0, 0⟩), (640, ⟨0, 33⟩), (640, ⟨0, 66⟩)]).cur 4 ≠ [true, true, true, false] := by
  decide

/-- A writer advance away from the wrap slot, in a store that is not full. -/
theorem nextPtrAt_write_plain (Q : Int) (c : Cursors) (hw : c.wptr ≠ Q - 1) (hd : c.depth < Q) :
    (nextPtrAt Q WRITE_POINTER c).2 =
      { wptr := c.wptr + 1, rptr_diff := c.rptr_diff, rptr_sel := c.rptr_sel,
        depth := c.depth + 1 } := by
  simp [nextPtrAt, ONE, hw, hd]

/-- C8 (amended): on a store of capacity `Q >= 4` (in particular the code's
`QUEUE_DEPTH = 90`), after `reset_queue()` and exactly three `write_size_and_time`
calls, the first two `nextPtr(READ_DIFF_POINTER)` calls return true and the third
and fourth return false. -/
theorem scenarioA_two_advances (Q : Int) (hQ : 4 ≤ Q) (st0 : Store)
    (ws : List (Int × timespec)) (hlen : ws.length = 3) :
    advanceResults Q READ_DIFF_POINTER (writesAt Q (afterReset st0) ws).cur 4 =
      [true, true, false, false] := by
  match ws, hlen with
  | [w1, w2, w3], _ =>
    have h3 : (writesAt Q (afterReset st0) [w1, w2, w3]).cur =
        { wptr := 3, rptr_diff := 0, rptr_sel := 0, depth := 3 } := by
      have e1 : (nextPtrAt Q WRITE_POINTER ⟨0, 0, 0, 0⟩).2 = ⟨1, 0, 0, 1⟩ := by
        rw [nextPtrAt_write_plain Q _ (by show (0 : Int) ≠ Q - 1; omega)
          (by show (0 : Int) < Q; omega)]
        rfl
      have e2 : (nextPtrAt Q WRITE_POINTER ⟨1, 0, 0, 1⟩).2 = ⟨2, 0, 0, 2⟩ := by
        rw [nextPtrAt_write_plain Q _ (by show (1 : Int) ≠ Q - 1; omega)
          (by show (1 : Int) < Q; omega)]
        rfl
      have e3 : (nextPtrAt Q WRITE_POINTER ⟨2, 0, 0, 2⟩).2 = ⟨3, 0, 0, 3⟩ := by
        rw [nextPtrAt_write_plain Q _ (by show (2 : Int) ≠ Q - 1; omega)
          (by show (2 : Int) < Q; omega)]
        rfl
      simp only [writesAt, write_size_and_timeAt, afterReset_cur, e1, e2, e3]
    rw [h3]
    have q1 : ¬ (0 : Int) = Q - 1 := by omega
    have q2 : ¬ (1 : Int) = Q - 1 := by omega
    have q3 : ¬ Q = 3 := by omega
    simp [advanceResults, nextPtrAt, READ_DIFF_POINTER, WRITE_POINTER, ONE, q1, q2, q3]

theorem scenarioA_two_advances_witness :
    (4 : Int) ≤ 4 ∧
    advanceResults 4 READ_DIFF_POINTER
      (writesAt 4 (afterReset blankStore) [(640, ⟨0, 0⟩), (640, ⟨0, 33⟩), (640, ⟨0, 66⟩)]).cur 4 =
      [true, true, false, false] :=
  ⟨by decide, scenarioA_two_advances 4 (by decide) blankStore _ rfl⟩

/-- C9, as stated, fails: after `reset_queue()`, `QUEUE_DEPTH` writes, `QUEUE_DEPTH`
`nextPtr(READ_DIFF_POINTER)` calls and `QUEUE_DEPTH` `nextPtr(READ_SEL_POINTER)`
calls, `depth` is not 0. -/
theorem fill_then_drain_depth_nonzero :
    (run (afterReset blankStore)
      (fillThenDrain (List.replicate 90 (640, ⟨0, 0⟩)))).cur.depth ≠ 0 := by
  decide!

/-- The writes of a run act on the cursors as that many writer advances. -/
theorem writeOps_roles (ws : List (Int × timespec)) :
    (writeOps ws).map Op.role = List.replicate ws.length WRITE_POINTER := by
  induction ws with
  | nil => rfl
  | cons w ws ih =>
    simp only [writeOps, List.map_cons, List.length_cons, List.replicate_succ] at ih ⊢
    rw [ih]
    rfl

/-- C9 (amended): starting from `reset_queue()`, `QUEUE_DEPTH` writes
(`write_size_and_time`), then `QUEUE_DEPTH` `nextPtr(READ_DIFF_POINTER)` calls, then
`QUEUE_DEPTH` `nextPtr(READ_SEL_POINTER)` calls reach the state with
`wptr == rptr_diff == rptr_sel == 0` and `depth == QUEUE_DEPTH`. -/
theorem fill_then_drain_state (st0 : Store) (ws : List (Int × timespec))
    (hlen : (ws.length : Int) = QUEUE_DEPTH) :
    (run (afterReset st0) (fillThenDrain ws)).cur =
      { wptr := 0, rptr_diff := 0, rptr_sel := 0, depth := QUEUE_DEPTH } := by
  have hl : ws.length = 90 := by
    simp only [QUEUE_DEPTH] at hlen
    omega
  rw [run_cur, afterReset_cur, fillThenDrain, List.map_append, List.map_append, writeOps_roles,
    hl]
  decide!

theorem fill_then_drain_state_witness :
    (((List.replicate 90 ((640 : Int), (⟨3, 250⟩ : timespec))).length : Int) = QUEUE_DEPTH) ∧
    (run (afterReset blankStore) (fillThenDrain (List.replicate 90 (640, ⟨3, 250⟩)))).cur =
      { wptr := 0, rptr_diff := 0, rptr_sel := 0, depth := QUEUE_DEPTH } :=
  ⟨by decide, fill_then_drain_state blankStore _ (by decide)⟩

/-! ## `read_frame_ptr` -/

/-- C11: `read_frame_ptr(buf, type, &size)` returns `NULL` exactly when `depth == 0`
or `type` is not strictly between `START_OF_ENUM_PTR_TYPE` and `END_OF_ENUM_PTR_TYPE`,
and then leaves `size` untouched; otherwise for `READ_DIFF_POINTER` (resp.
`READ_SEL_POINTER`) it returns the payload of the slot at `rptr_diff` (resp.
`rptr_sel`) and sets `size` to that slot's size; in every case the cursors, `depth`
and all frame records are unchanged. -/
theorem read_frame_ptr_contract (type size : Int) (st : Store) :
    ((read_frame_ptr type size st).1 = none ↔
      (st.cur.depth = 0 ∨ ¬ (START_OF_ENUM_PTR_TYPE < type ∧ type < END_OF_ENUM_PTR_TYPE))) ∧
    ((read_frame_ptr type size st).1 = none → (read_frame_ptr type size st).2.1 = size) ∧
    (st.cur.depth ≠ 0 → type = READ_DIFF_POINTER →
      (read_frame_ptr type size st).1 = some st.cur.rptr_diff ∧
      (read_frame_ptr type size st).2.1 = (st.frame_buffer st.cur.rptr_diff).size) ∧
    (st.cur.depth ≠ 0 → type = READ_SEL_POINTER →
      (read_frame_ptr type size st).1 = some st.cur.rptr_sel ∧
      (read_frame_ptr type size st).2.1 = (st.frame_buffer st.cur.rptr_sel).size) ∧
    (read_frame_ptr type size st).2.2 = st := by
  refine ⟨?_, ?_, ?_, ?_, ?_⟩
  · simp only [read_frame_ptr, ZERO, decide_eq_true_eq, gt_iff_lt]
    split_ifs with h
    · simp only [false_iff, reduceCtorEq]
      tauto
    · simp only [true_iff]
      tauto
  · simp only [read_frame_ptr, ZERO, decide_eq_true_eq, gt_iff_lt]
    split_ifs with h <;> simp
  · intro hd ht
    subst ht
    simp [read_frame_ptr, ZERO, hd, READ_DIFF_POINTER, READ_SEL_POINTER,
      START_OF_ENUM_PTR_TYPE, END_OF_ENUM_PTR_TYPE]
  · intro hd ht
    subst ht
    simp [read_frame_ptr, ZERO, hd, READ_SEL_POINTER,
      START_OF_ENUM_PTR_TYPE, END_OF_ENUM_PTR_TYPE]
  · simp only [read_frame_ptr]
    split_ifs <;> rfl

theorem read_frame_ptr_contract_witness :
    ((read_frame_ptr 7 33 (run (afterReset blankStore)
        [Op.write_size_and_time 640 ⟨1, 0⟩])).2.1 = 33) ∧
    ((read_frame_ptr READ_DIFF_POINTER 33 (run (afterReset blankStore)
        [Op.write_size_and_time 640 ⟨1, 0⟩])).1 = some 0 ∧
     (read_frame_ptr READ_DIFF_POINTER 33 (run (afterReset blankStore)
        [Op.write_size_and_time 640 ⟨1, 0⟩])).2.1 = 640) ∧
    ((read_frame_ptr READ_SEL_POINTER 33 (run (afterReset blankStore)
        [Op.write_size_and_time 640 ⟨1, 0⟩])).1 = some 0 ∧
     (read_frame_ptr READ_SEL_POINTER 33 (run (afterReset blankStore)
        [Op.write_size_and_time 640 ⟨1, 0⟩])).2.1 = 640) :=
  ⟨(read_frame_ptr_contract 7 33 _).2.1 (by decide),
   (read_frame_ptr_contract READ_DIFF_POINTER 33 _).2.2.1 (by decide) rfl,
   (read_frame_ptr_contract READ_SEL_POINTER 33 _).2.2.2.1 (by decide) rfl⟩

/-! ## The hand-off queue -/

/-- Closed form of a push into a queue that is not full. -/
theorem push_frame_fifo_room (e : Option Int) (q : fifo_queue_t) (h : q.count ≠ MAX_FIFO_DEPTH) :
    push_frame_fifo e q =
      (0, { data := fun j => if j = q.rear then e else q.data j, front := q.front,
            rear := Int.tmod (q.rear + 1) MAX_FIFO_DEPTH, count := q.count + 1 }) := by
  simp [push_frame_fifo, h]

/-- Closed form of a pop from a queue that is not empty. -/
theorem pop_frame_fifo_some (q : fifo_queue_t) (h : q.count ≠ 0) :
    pop_frame_fifo q =
      (q.data q.front, { data := q.data, front := Int.tmod (q.front + 1) MAX_FIFO_DEPTH,
                         rear := q.rear, count := q.count - 1 }) := by
  simp [pop_frame_fifo, h]

/-- Pushing `es` into a queue with room for all of them adds `es.length` to `count`. -/
theorem pushAll_count (es : List (Option Int)) (q : fifo_queue_t)
    (h0 : 0 ≤ q.count) (h : q.count + es.length ≤ MAX_FIFO_DEPTH) :
    (pushAll q es).count = q.count + es.length := by
  induction es generalizing q with
  | nil => simp [pushAll]
  | cons e es ih =>
    simp only [List.length_cons, Nat.cast_add, Nat.cast_one, MAX_FIFO_DEPTH] at h
    have hne : q.count ≠ MAX_FIFO_DEPTH := by
      simp only [MAX_FIFO_DEPTH]
      omega
    simp only [pushAll, push_frame_fifo_room e q hne, List.length_cons, Nat.cast_add,
      Nat.cast_one]
    rw [ih]
    · simp only
      omega
    · simp only
      omega
    · simp only [MAX_FIFO_DEPTH]
      omega

/-- C13: `push_frame_fifo` returns `-1` if and only if `count == MAX_FIFO_DEPTH`, and
then `data`, `front`, `rear` and `count` are unchanged; otherwise (with `rear` a
valid index) it returns 0, stores the reference at index `rear`, sets `rear` to
`(rear + 1) mod MAX_FIFO_DEPTH`, increments `count` and leaves `front` unchanged.
After `MAX_FIFO_DEPTH` pushes into the queue left by `init_fifoQ()`, the next push
returns `-1`. -/
theorem push_frame_fifo_contract (e : Option Int) (q : fifo_queue_t) :
    ((push_frame_fifo e q).1 = -1 ↔ q.count = MAX_FIFO_DEPTH) ∧
    (q.count = MAX_FIFO_DEPTH → (push_frame_fifo e q).2 = q) ∧
    (q.count ≠ MAX_FIFO_DEPTH → 0 ≤ q.rear ∧ q.rear < MAX_FIFO_DEPTH →
      (push_frame_fifo e q).1 = 0 ∧
      (push_frame_fifo e q).2.data q.rear = e ∧
      (∀ j : Int, j ≠ q.rear → (push_frame_fifo e q).2.data j = q.data j) ∧
      (push_frame_fifo e q).2.rear = (q.rear + 1) % MAX_FIFO_DEPTH ∧
      (push_frame_fifo e q).2.count = q.count + 1 ∧
      (push_frame_fifo e q).2.front = q.front) ∧
    (∀ (q0 : fifo_queue_t) (es : List (Option Int)), (es.length : Int) = MAX_FIFO_DEPTH →
      (push_frame_fifo e (pushAll (init_fifoQ q0) es)).1 = -1) := by
  refine ⟨?_, ?_, ?_, ?_⟩
  · by_cases h : q.count = MAX_FIFO_DEPTH
    · simp [push_frame_fifo, h]
    · simp [push_frame_fifo_room e q h, h]
  · intro h
    simp [push_frame_fifo, h]
  · intro h ⟨hr0, hr1⟩
    rw [push_frame_fifo_room e q h]
    refine ⟨rfl, by simp, ?_, ?_, rfl, rfl⟩
    · intro j hj
      simp [hj]
    · exact Int.tmod_eq_emod (by omega) (by decide)
  · intro q0 es hlen
    have hc : (pushAll (init_fifoQ q0) es).count = MAX_FIFO_DEPTH := by
      rw [pushAll_count es (init_fifoQ q0) (by simp [init_fifoQ])
        (by simp [init_fifoQ, hlen])]
      simp [init_fifoQ, hlen]
    simp [push_frame_fifo, hc]

theorem push_frame_fifo_contract_witness :
    ((push_frame_fifo (some 4) (pushAll (init_fifoQ ⟨fun _ => some 9, 3, 3, 0⟩)
        (List.replicate 10 (some 2)))).2.count = 10) ∧
    ((push_frame_fifo (some 4) (pushAll (init_fifoQ ⟨fun _ => some 9, 3, 3, 0⟩)
        [some 7, some 8])).1 = 0 ∧
     (push_frame_fifo (some 4) (pushAll (init_fifoQ ⟨fun _ => some 9, 3, 3, 0⟩)
        [some 7, some 8])).2.rear = 3) ∧
    ((push_frame_fifo (some 4) (pushAll (init_fifoQ ⟨fun _ => some 9, 3, 3, 0⟩)
        (List.replicate 10 (some 2)))).1 = -1) :=
  ⟨congrArg fifo_queue_t.count ((push_frame_fifo_contract (some 4)
      (pushAll (init_fifoQ ⟨fun _ => some 9, 3, 3, 0⟩) (List.replicate 10 (some 2)))).2.1
      (by decide)),
   ⟨((push_frame_fifo_contract (some 4)
      (pushAll (init_fifoQ ⟨fun _ => some 9, 3, 3, 0⟩) [some 7, some 8])).2.2.1
      (by decide) (by decide)).1,
    ((push_frame_fifo_contract (some 4)
      (pushAll (init_fifoQ ⟨fun _ => some 9, 3, 3, 0⟩) [some 7, some 8])).2.2.1
      (by decide) (by decide)).2.2.2.1⟩,
   (push_frame_fifo_contract (some 4) ⟨fun _ => none, 0, 0, 0⟩).2.2.2
      ⟨fun _ => some 9, 3, 3, 0⟩ (List.replicate 10 (some 2)) (by decide)⟩

/-- C14: `pop_frame_fifo` returns `NULL` with `data`, `front`, `rear` and `count`
unchanged when `count == 0`; otherwise (with `front` a valid index) it returns
`data[front]`, sets `front` to `(front + 1) mod MAX_FIFO_DEPTH`, decrements `count`
and leaves `rear` and `data` unchanged. -/
theorem pop_frame_fifo_contract (q : fifo_queue_t) :
    (q.count = 0 → pop_frame_fifo q = (none, q)) ∧
    (q.count ≠ 0 → 0 ≤ q.front ∧ q.front < MAX_FIFO_DEPTH →
      (pop_frame_fifo q).1 = q.data q.front ∧
      (pop_frame_fifo q).2.front = (q.front + 1) % MAX_FIFO_DEPTH ∧
      (pop_frame_fifo q).2.count = q.count - 1 ∧
      (pop_frame_fifo q).2.rear = q.rear ∧
      (pop_frame_fifo q).2.data = q.data) := by
  constructor
  · intro h
    simp [pop_frame_fifo, h]
  · intro h ⟨hf0, hf1⟩
    rw [pop_frame_fifo_some q h]
    exact ⟨rfl, Int.tmod_eq_emod (by omega) (by decide), rfl, rfl, rfl⟩

theorem pop_frame_fifo_contract_witness :
    ((pop_frame_fifo (init_fifoQ ⟨fun _ => some 9, 3, 3, 5⟩)).1 = none) ∧
    ((pop_frame_fifo (pushAll (init_fifoQ ⟨fun _ => some 9, 3, 3, 5⟩) [some 7, some 8])).1
        = some 7 ∧
     (pop_frame_fifo (pushAll (init_fifoQ ⟨fun _ => some 9, 3, 3, 5⟩) [some 7, some 8])).2.front
        = 1 ∧
     (pop_frame_fifo (pushAll (init_fifoQ ⟨fun _ => some 9, 3, 3, 5⟩) [some 7, some 8])).2.count
        = 1) :=
  ⟨congrArg Prod.fst ((pop_frame_fifo_contract (init_fifoQ ⟨fun _ => some 9, 3, 3, 5⟩)).1
      (by decide)),
   ((pop_frame_fifo_contract
      (pushAll (init_fifoQ ⟨fun _ => some 9, 3, 3, 5⟩) [some 7, some 8])).2
      (by decide) (by decide)).1,
   ((pop_frame_fifo_contract
      (pushAll (init_fifoQ ⟨fun _ => some 9, 3, 3, 5⟩) [some 7, some 8])).2
      (by decide) (by decide)).2.1,
   ((pop_frame_fifo_contract
      (pushAll (init_fifoQ ⟨fun _ => some 9, 3, 3, 5⟩) [some 7, some 8])).2
      (by decide) (by decide)).2.2.1⟩

/-- A push on the array queue and on the list it holds return the same value
and leave an array queue that holds the new list. -/
theorem push_holds (e : Option Int) (q : fifo_queue_t) (l : List (Option Int))
    (h : Holds q l) :
    (push_frame_fifo e q).1 = (listPush MAX_FIFO_DEPTH.toNat e l).1 ∧
    Holds (push_frame_fifo e q).2 (listPush MAX_FIFO_DEPTH.toNat e l).2 := by
  obtain ⟨⟨hf0, hf1⟩, hlen, hcount, hrear, hdata⟩ := h
  simp only [MAX_FIFO_DEPTH] at hf1 hlen hrear hdata
  have hM : MAX_FIFO_DEPTH.toNat = 10 := by decide
  by_cases hfull : q.count = MAX_FIFO_DEPTH
  · have hl : l.length = 10 := by
      simp only [MAX_FIFO_DEPTH] at hfull
      omega
    simp only [push_frame_fifo, hfull, if_true, listPush, hM, hl]
    exact ⟨trivial, ⟨hf0, hf1⟩, by simp [MAX_FIFO_DEPTH, hl], hcount, hrear, hdata⟩
  · have hl : l.length ≠ 10 := by
      simp only [MAX_FIFO_DEPTH] at hfull
      omega
    rw [push_frame_fifo_room e q hfull]
    simp only [listPush, hM, hl, if_false]
    refine ⟨trivial, ⟨hf0, hf1⟩, ?_, ?_, ?_, ?_⟩
    · simp only [List.length_append, List.length_singleton, MAX_FIFO_DEPTH, Nat.cast_add,
        Nat.cast_one]
      omega
    · simp only [List.length_append, List.length_singleton, Nat.cast_add, Nat.cast_one]
      omega
    · simp only [MAX_FIFO_DEPTH]
      rw [Int.tmod_eq_emod (by omega) (by decide)]
      omega
    · intro i hi
      simp only [List.length_append, List.length_singleton] at hi
      simp only [MAX_FIFO_DEPTH]
      by_cases hlt : i < l.length
      · have hne : (q.front + (i : Int)) % 10 ≠ q.rear := by omega
        rw [List.getElem?_append_left hlt, hdata i hlt]
        simp [hne]
      · have hieq : i = l.length := by omega
        have heq : (q.front + (i : Int)) % 10 = q.rear := by omega
        subst hieq
        simp [heq]

/-- A pop on the array queue and on the list it holds return the same reference
and leave an array queue that holds the new list. -/
theorem pop_holds (q : fifo_queue_t) (l : List (Option Int)) (h : Holds q l) :
    (pop_frame_fifo q).1 = (listPop l).1 ∧ Holds (pop_frame_fifo q).2 (listPop l).2 := by
  obtain ⟨⟨hf0, hf1⟩, hlen, hcount, hrear, hdata⟩ := h
  simp only [MAX_FIFO_DEPTH] at hf1 hlen hrear hdata
  cases l with
  | nil =>
    have hc : q.count = 0 := by simpa using hcount
    simp only [pop_frame_fifo, hc, if_true, listPop]
    exact ⟨trivial, ⟨hf0, hf1⟩, by simp [MAX_FIFO_DEPTH], by simpa using hc, by
      simp only [MAX_FIFO_DEPTH]; omega, by simp⟩
  | cons x rest =>
    simp only [List.length_cons, Nat.cast_add, Nat.cast_one] at hlen hcount
    have hc : q.count ≠ 0 := by omega
    rw [pop_frame_fifo_some q hc]
    simp only [listPop]
    have h0 := hdata 0 (by simp)
    simp only [List.getElem?_cons_zero, Option.some.injEq, Nat.cast_zero, add_zero] at h0
    have hfm : q.front % 10 = q.front := by omega
    rw [hfm] at h0
    refine ⟨h0.symm, ?_, ?_, ?_, ?_, ?_⟩
    · simp only [MAX_FIFO_DEPTH]
      rw [Int.tmod_eq_emod (by omega) (by decide)]
      omega
    · simp only [MAX_FIFO_DEPTH]
      omega
    · simp only
      omega
    · simp only [MAX_FIFO_DEPTH]
      rw [Int.tmod_eq_emod (by omega) (by decide)]
      omega
    · intro i hi
      have hi1 := hdata (i + 1) (by simp; omega)
      simp only [List.getElem?_cons_succ, Nat.cast_add, Nat.cast_one] at hi1
      simp only [MAX_FIFO_DEPTH]
      rw [Int.tmod_eq_emod (by omega) (by decide), hi1]
      have : (q.front + ((i : Int) + 1)) % 10 = ((q.front + 1) % 10 + (i : Int)) % 10 := by
        omega
      rw [this]

/-- From an array queue that holds a list, every sequence of calls returns the
same values on both. -/
theorem fifoTrace_eq_of_holds (calls : List FifoCall) (q : fifo_queue_t)
    (l : List (Option Int)) (h : Holds q l) :
    fifoTrace q calls = listTrace MAX_FIFO_DEPTH.toNat l calls := by
  induction calls generalizing q l with
  | nil => rfl
  | cons c calls ih =>
    cases c with
    | push e =>
      simp only [fifoTrace, listTrace]
      rw [(push_holds e q l h).1, ih _ _ (push_holds e q l h).2]
    | pop =>
      simp only [fifoTrace, listTrace]
      rw [(pop_holds q l h).1, ih _ _ (pop_holds q l h).2]

/-- C12: starting from `init_fifoQ()`, every sequence of `push_frame_fifo` and
`pop_frame_fifo` calls returns exactly what the same calls return on a list-based
FIFO bounded at `MAX_FIFO_DEPTH` that starts empty: the references popped are the
references successfully pushed, in push order. -/
theorem fifo_refines_list (q0 : fifo_queue_t) (calls : List FifoCall) :
    fifoTrace (init_fifoQ q0) calls = listTrace MAX_FIFO_DEPTH.toNat [] calls :=
  fifoTrace_eq_of_holds calls (init_fifoQ q0) []
    ⟨by simp [init_fifoQ, MAX_FIFO_DEPTH], by decide, rfl, by simp [init_fifoQ, MAX_FIFO_DEPTH],
      by simp⟩

/-! ## `frame_select` -/

/-- One evaluation of the loop of `frame_select`, spelled out. -/
theorem frame_select_loop_succ (fuel : Nat) (s : Sys) :
    frame_select_loop (fuel + 1) s =
      if (nextPtr READ_SEL_POINTER s.store.cur).1 = true ∧ s.frame_count ≤ FRAME_CAPTURE_COUNT then
        if (getMSfromTimestamp (read_timestamp READ_SEL_POINTER s.temp_time
              { s.store with cur := (nextPtr READ_SEL_POINTER s.store.cur).2 }).2 > s.old_ts ∧
            wrapInt (getMSfromTimestamp (read_timestamp READ_SEL_POINTER s.temp_time
              { s.store with cur := (nextPtr READ_SEL_POINTER s.store.cur).2 }).2 - s.old_ts)
              > 90) ∧
            read_usefulness READ_SEL_POINTER
              { s.store with cur := (nextPtr READ_SEL_POINTER s.store.cur).2 } > -1 then
          some (1, { s with
            store := (write_framecount s.frame_count
              { s.store with cur := (nextPtr READ_SEL_POINTER s.store.cur).2 }).2,
            fifo := (push_frame_fifo (some (nextPtr READ_SEL_POINTER s.store.cur).2.rptr_sel)
              s.fifo).2,
            frame_count := (s.frame_count + 1) % 2 ^ 32,
            temp_time := (read_timestamp READ_SEL_POINTER s.temp_time
              { s.store with cur := (nextPtr READ_SEL_POINTER s.store.cur).2 }).2,
            new_ts := getMSfromTimestamp (read_timestamp READ_SEL_POINTER s.temp_time
              { s.store with cur := (nextPtr READ_SEL_POINTER s.store.cur).2 }).2,
            old_ts := getMSfromTimestamp (read_timestamp READ_SEL_POINTER s.temp_time
              { s.store with cur := (nextPtr READ_SEL_POINTER s.store.cur).2 }).2 })
        else
          frame_select_loop fuel { s with
            store := { s.store with cur := (nextPtr READ_SEL_POINTER s.store.cur).2 },
            temp_time := (read_timestamp READ_SEL_POINTER s.temp_time
              { s.store with cur := (nextPtr READ_SEL_POINTER s.store.cur).2 }).2,
            new_ts := getMSfromTimestamp (read_timestamp READ_SEL_POINTER s.temp_time
              { s.store with cur := (nextPtr READ_SEL_POINTER s.store.cur).2 }).2 }
      else
        some (0, { s with store := { s.store with cur := (nextPtr READ_SEL_POINTER s.store.cur).2 } })
    := by
  simp only [frame_select_loop, FRAME_SELECTION_TIME_MS, offset, read_cbuf_entry,
    write_framecount]
  by_cases h1 : (nextPtr READ_SEL_POINTER s.store.cur).1 = true ∧
      s.frame_count ≤ FRAME_CAPTURE_COUNT
  · have h1' : (nextPtr READ_SEL_POINTER s.store.cur).1 ≠ false ∧
        s.frame_count ≤ FRAME_CAPTURE_COUNT := ⟨by simp [h1.1], h1.2⟩
    rw [if_pos h1, if_pos h1']
    split_ifs <;> first | rfl | (exfalso; omega)
  · have h1' : ¬ ((nextPtr READ_SEL_POINTER s.store.cur).1 ≠ false ∧
        s.frame_count ≤ FRAME_CAPTURE_COUNT) := by
      intro h
      exact h1 ⟨by simpa using h.1, h.2⟩
    rw [if_neg h1, if_neg h1']

/-- A successful select-reader advance, spelled out. -/
theorem nextPtr_sel_true (c : Cursors) (h : (nextPtr READ_SEL_POINTER c).1 = true) :
    ((c.rptr_sel < c.rptr_diff - 1 ∧ 90 ≠ c.depth) ∨
      (c.rptr_sel > c.rptr_diff ∧ c.rptr_diff ≠ 0)) ∧
    (nextPtr READ_SEL_POINTER c).2 =
      { wptr := c.wptr, rptr_diff := c.rptr_diff,
        rptr_sel := if c.rptr_sel = 89 then 0 else c.rptr_sel + 1,
        depth := if c.depth > 0 then c.depth - 1 else c.depth } := by
  rw [nextPtr_sel_eq] at h ⊢
  by_cases hc : (c.rptr_sel < c.rptr_diff - 1 ∧ 90 ≠ c.depth) ∨
      (c.rptr_sel > c.rptr_diff ∧ c.rptr_diff ≠ 0)
  · rw [if_pos hc]
    exact ⟨hc, rfl⟩
  · rw [if_neg hc] at h
    simp at h

/-- What a completed loop of `frame_select` has done: either it returns 0 and
nothing was selected, or it returns 1 and exactly the slot under the select-reader
was selected, a slot later than `old_ts` whose usefulness read is above -1. -/
theorem frame_select_loop_outcome (fuel : Nat) (s : Sys) (r : Int) (s' : Sys)
    (h : frame_select_loop fuel s = some (r, s')) :
    (r = 0 ∧ NothingSelected s s') ∨
    (r = 1 ∧ OneSelected s s' ∧ s'.new_ts > s.old_ts ∧
      read_usefulness READ_SEL_POINTER
        { cur := s'.store.cur, frame_buffer := s.store.frame_buffer } > -1) := by
  induction fuel generalizing s with
  | zero => simp [frame_select_loop] at h
  | succ fuel ih =>
    rw [frame_select_loop_succ] at h
    split_ifs at h with h1 h2
    · simp only [Option.some.injEq, Prod.mk.injEq] at h
      obtain ⟨hr, hs⟩ := h
      subst hs
      right
      exact ⟨hr.symm, ⟨rfl, rfl, rfl, rfl⟩, h2.1.1, h2.2⟩
    · rcases ih _ h with ⟨hr, hn⟩ | ⟨hr, ho, ht, hu⟩
      · left
        exact ⟨hr, hn⟩
      · right
        exact ⟨hr, ho, ht, hu⟩
    · simp only [Option.some.injEq, Prod.mk.injEq] at h
      obtain ⟨hr, hs⟩ := h
      subst hs
      left
      exact ⟨hr.symm, rfl, rfl, rfl, rfl⟩

/-- With cursors in range the loop of `frame_select` returns: each pass moves the
select-reader one slot closer to the slot behind the diff-reader, so 90
evaluations of the loop condition always suffice. -/
theorem frame_select_loop_returns (fuel : Nat) (s : Sys)
    (hr : CursorsInRange s.store.cur)
    (hf : (s.store.cur.rptr_diff - 1 - s.store.cur.rptr_sel) % 90 < fuel) :
    ∃ r s', frame_select_loop fuel s = some (r, s') := by
  induction fuel generalizing s with
  | zero => omega
  | succ fuel ih =>
    rw [frame_select_loop_succ]
    split_ifs with h1 h2
    · exact ⟨_, _, rfl⟩
    · obtain ⟨hc, he⟩ := nextPtr_sel_true s.store.cur h1.1
      obtain ⟨hw, hd, hs⟩ := hr
      simp only [QUEUE_DEPTH] at hw hd hs
      apply ih
      · simp only [he, CursorsInRange, QUEUE_DEPTH]
        split_ifs <;> omega
      · simp only [he]
        split_ifs <;> omega
    · exact ⟨_, _, rfl⟩

/-- C15, as stated, fails: with the hand-off queue full, a qualifying frame in slot 1
and the select-reader one slot before it, `frame_select` returns 1 although
`push_frame_fifo` rejected the reference and `count` is still
`MAX_FIFO_DEPTH`. -/
theorem frame_select_reports_rejected_push :
    (push_frame_fifo (some 1) fullFifo).1 = -1 ∧
    (frame_select 90 { sysAt ⟨3, 2, 0, 3⟩ (framesWith 7) with fifo := fullFifo }).map
      (fun out => (out.1, out.2.fifo.count)) = some (1, MAX_FIFO_DEPTH) := by
  decide!

/-- C15 (amended): whenever `frame_select` returns 1 a frame was selected: the slot
under the select-reader was stamped with the label, `push_frame_fifo` was called
with its reference and `frame_count` was incremented.  If the hand-off queue was
not full the push was accepted (the reference is stored at the old `rear` and
`count` grew by one); if it was full the push was rejected, the queue is unchanged
and `frame_select` returns 1 all the same. -/
theorem frame_select_one_means_selected (fuel : Nat) (s s' : Sys)
    (h : frame_select fuel s = some (1, s')) :
    OneSelected s s' ∧
    (s.fifo.count ≠ MAX_FIFO_DEPTH →
      s'.fifo.count = s.fifo.count + 1 ∧
      s'.fifo.data s.fifo.rear = some s'.store.cur.rptr_sel) ∧
    (s.fifo.count = MAX_FIFO_DEPTH → s'.fifo = s.fifo) := by
  have hloop : frame_select_loop fuel s = some (1, s') := by
    unfold frame_select at h
    split_ifs at h with hfc
    · exact h
    · simp at h
  rcases frame_select_loop_outcome fuel s 1 s' hloop with ⟨hr, _⟩ | ⟨_, ho, _, _⟩
  · omega
  · refine ⟨ho, ?_, ?_⟩
    · intro hne
      rw [ho.2.1, push_frame_fifo_room _ _ hne]
      simp
    · intro hfull
      rw [ho.2.1]
      simp [push_frame_fifo, hfull]

theorem frame_select_one_means_selected_witness :
    ∃ s' : Sys, frame_select 90 (sysAt ⟨3, 2, 0, 3⟩ (framesWith 7)) = some (1, s') ∧
      s'.fifo.count = 0 + 1 ∧ s'.fifo.data 0 = some s'.store.cur.rptr_sel :=
  ⟨_, rfl, (frame_select_one_means_selected 90 (sysAt ⟨3, 2, 0, 3⟩ (framesWith 7)) _ rfl).2.1
    (by decide)⟩

/-- C16 fails on the code: `differencing` marks the frame in slot 1, which differs
from the baseline in all 300 bytes, with the sentinel `FRAME_NOT_USEFUL`, and the
next `frame_select` returns 1 and pushes the reference of that very slot. -/
theorem not_useful_frame_is_selected :
    (differencing (sysAt ⟨3, 0, 0, 3⟩ (framesWith (-20)))).map
      (fun out => (out.2.store.frame_buffer 1).usefulness) = some FRAME_NOT_USEFUL ∧
    ((differencing (sysAt ⟨3, 0, 0, 3⟩ (framesWith (-20)))).bind
      (fun out => frame_select 90 out.2)).map
      (fun out => (out.1, out.2.store.cur.rptr_sel, out.2.fifo.data 0,
        (out.2.store.frame_buffer 1).usefulness)) = some (1, 1, some 1, FRAME_NOT_USEFUL) := by
  decide!

/-- With data in the store, `read_timestamp` and `read_usefulness` for the
select-reader read the slot at `rptr_sel`. -/
theorem read_sel_slot (time : timespec) (st : Store) (h : st.cur.depth ≠ 0) :
    (read_timestamp READ_SEL_POINTER time st).2 = (st.frame_buffer st.cur.rptr_sel).timestamp ∧
    read_usefulness READ_SEL_POINTER st = (st.frame_buffer st.cur.rptr_sel).usefulness := by
  simp [read_timestamp, read_usefulness, READ_SEL_POINTER, START_OF_ENUM_PTR_TYPE,
    END_OF_ENUM_PTR_TYPE, ZERO, h]

/-- C17: with `first_capture` false and `frame_count <= FRAME_CAPTURE_COUNT`, a slot
reached by a successful select-reader advance (with `depth > 0` afterwards), whose
timestamp is representable and for which the `int` subtraction `new_ts - old_ts`
does not overflow, is selected if and only if
`getMSfromTimestamp(slot.timestamp) - old_ts > 90` and `slot.usefulness >= 0`: if so
`frame_select` returns 1 right there, having selected that slot; if not it passes
the slot over and goes on with the loop.  Hence a frame stamped `old_ts + 50` ms is
passed over and a frame stamped `old_ts + 150` ms with non-negative usefulness is
selected. -/
theorem frame_select_slot_rule (fuel : Nat) (s : Sys)
    (hfc : s.first_capture = false) (hcnt : s.frame_count ≤ FRAME_CAPTURE_COUNT)
    (hadv : (nextPtr READ_SEL_POINTER s.store.cur).1 = true)
    (hdepth : 0 < (nextPtr READ_SEL_POINTER s.store.cur).2.depth)
    (hrep : Representable
      (s.store.frame_buffer (nextPtr READ_SEL_POINTER s.store.cur).2.rptr_sel).timestamp)
    (hfit : getMSfromTimestamp
        (s.store.frame_buffer (nextPtr READ_SEL_POINTER s.store.cur).2.rptr_sel).timestamp
        - s.old_ts ≤ INT_MAX) :
    (Selectable s.old_ts
        (s.store.frame_buffer (nextPtr READ_SEL_POINTER s.store.cur).2.rptr_sel) →
      frame_select (fuel + 1) s =
        some (1, selectSlot s (nextPtr READ_SEL_POINTER s.store.cur).2)) ∧
    (¬ Selectable s.old_ts
        (s.store.frame_buffer (nextPtr READ_SEL_POINTER s.store.cur).2.rptr_sel) →
      frame_select (fuel + 1) s =
        frame_select_loop fuel (skipSlot s (nextPtr READ_SEL_POINTER s.store.cur).2)) ∧
    (getMSfromTimestamp
        (s.store.frame_buffer (nextPtr READ_SEL_POINTER s.store.cur).2.rptr_sel).timestamp
        = s.old_ts + 50 →
      frame_select (fuel + 1) s =
        frame_select_loop fuel (skipSlot s (nextPtr READ_SEL_POINTER s.store.cur).2)) ∧
    (getMSfromTimestamp
        (s.store.frame_buffer (nextPtr READ_SEL_POINTER s.store.cur).2.rptr_sel).timestamp
        = s.old_ts + 150 →
      (s.store.frame_buffer (nextPtr READ_SEL_POINTER s.store.cur).2.rptr_sel).usefulness ≥ 0 →
      frame_select (fuel + 1) s =
        some (1, selectSlot s (nextPtr READ_SEL_POINTER s.store.cur).2)) := by
  have hd : ({ s.store with cur := (nextPtr READ_SEL_POINTER s.store.cur).2 } : Store).cur.depth
      ≠ 0 := by
    simp only
    omega
  have hrd := read_sel_slot s.temp_time
    { s.store with cur := (nextPtr READ_SEL_POINTER s.store.cur).2 } hd
  simp only at hrd
  have hms : getMSfromTimestamp
        (s.store.frame_buffer (nextPtr READ_SEL_POINTER s.store.cur).2.rptr_sel).timestamp =
      exactMS
        (s.store.frame_buffer (nextPtr READ_SEL_POINTER s.store.cur).2.rptr_sel).timestamp := by
    unfold getMSfromTimestamp
    rw [if_pos ⟨hrep.2.2.1, hrep.2.2.2⟩]
  simp only [INT_MAX] at hfit
  have hyes : Selectable s.old_ts
        (s.store.frame_buffer (nextPtr READ_SEL_POINTER s.store.cur).2.rptr_sel) →
      frame_select (fuel + 1) s =
        some (1, selectSlot s (nextPtr READ_SEL_POINTER s.store.cur).2) := by
    intro hsel
    obtain ⟨h1, h2⟩ := hsel
    rw [frame_select, if_pos hfc, frame_select_loop_succ, if_pos ⟨hadv, hcnt⟩, hrd.1, hrd.2,
      if_pos ⟨⟨by omega, by unfold wrapInt; omega⟩, by omega⟩]
    rfl
  have hno : ¬ Selectable s.old_ts
        (s.store.frame_buffer (nextPtr READ_SEL_POINTER s.store.cur).2.rptr_sel) →
      frame_select (fuel + 1) s =
        frame_select_loop fuel (skipSlot s (nextPtr READ_SEL_POINTER s.store.cur).2) := by
    intro hsel
    have hn : ¬ ((getMSfromTimestamp
        (s.store.frame_buffer (nextPtr READ_SEL_POINTER s.store.cur).2.rptr_sel).timestamp
          > s.old_ts ∧
        wrapInt (getMSfromTimestamp
        (s.store.frame_buffer (nextPtr READ_SEL_POINTER s.store.cur).2.rptr_sel).timestamp
          - s.old_ts) > 90) ∧
        (s.store.frame_buffer (nextPtr READ_SEL_POINTER s.store.cur).2.rptr_sel).usefulness
          > -1) := by
      intro hc
      obtain ⟨⟨hc1, hc2⟩, hc3⟩ := hc
      unfold wrapInt at hc2
      exact hsel ⟨by omega, by omega⟩
    rw [frame_select, if_pos hfc, frame_select_loop_succ, if_pos ⟨hadv, hcnt⟩, hrd.1, hrd.2,
      if_neg hn]
    rfl
  refine ⟨hyes, hno, ?_, ?_⟩
  · intro h50
    apply hno
    intro hsel
    have := hsel.1
    omega
  · intro h150 hu
    apply hyes
    exact ⟨by omega, hu⟩

theorem frame_select_slot_rule_witness :
    frame_select (89 + 1) (sysAt ⟨3, 2, 0, 3⟩ (framesWith 7)) =
      some (1, selectSlot (sysAt ⟨3, 2, 0, 3⟩ (framesWith 7))
        (nextPtr READ_SEL_POINTER ⟨3, 2, 0, 3⟩).2) ∧
    frame_select (89 + 1) { sysAt ⟨3, 2, 0, 3⟩ (framesWith 7) with old_ts := 950 } =
      frame_select_loop 89
        (skipSlot { sysAt ⟨3, 2, 0, 3⟩ (framesWith 7) with old_ts := 950 }
          (nextPtr READ_SEL_POINTER ⟨3, 2, 0, 3⟩).2) ∧
    frame_select (89 + 1) { sysAt ⟨3, 2, 0, 3⟩ (framesWith 7) with old_ts := 850 } =
      some (1, selectSlot { sysAt ⟨3, 2, 0, 3⟩ (framesWith 7) with old_ts := 850 }
        (nextPtr READ_SEL_POINTER ⟨3, 2, 0, 3⟩).2) :=
  ⟨(frame_select_slot_rule 89 (sysAt ⟨3, 2, 0, 3⟩ (framesWith 7)) rfl (by decide) (by decide)
      (by decide) (by decide) (by decide)).1 (by decide),
   (frame_select_slot_rule 89 { sysAt ⟨3, 2, 0, 3⟩ (framesWith 7) with old_ts := 950 } rfl
      (by decide) (by decide) (by decide) (by decide) (by decide)).2.2.1 (by decide),
   (frame_select_slot_rule 89 { sysAt ⟨3, 2, 0, 3⟩ (framesWith 7) with old_ts := 850 } rfl
      (by decide) (by decide) (by decide) (by decide) (by decide)).2.2.2 (by decide) (by decide)⟩

/-- C18: `frame_select` returns -1 if and only if `first_capture` is true, and then
it changes nothing at all; when `first_capture` is false it returns 0, having
selected nothing, or 1, having selected exactly one frame (one label stamped, one
push, `frame_count` incremented once); and with cursors in range it does return. -/
theorem frame_select_contract (fuel : Nat) (s : Sys) :
    (s.first_capture = true → frame_select fuel s = some (-1, s)) ∧
    (∀ r s', frame_select fuel s = some (r, s') → (r = -1 ↔ s.first_capture = true)) ∧
    (s.first_capture = false → ∀ r s', frame_select fuel s = some (r, s') →
      (r = 0 ∧ NothingSelected s s') ∨ (r = 1 ∧ OneSelected s s')) ∧
    (s.first_capture = false → CursorsInRange s.store.cur → 90 ≤ fuel →
      ∃ r s', frame_select fuel s = some (r, s')) := by
  have hfalse : s.first_capture = false → ∀ r s', frame_select fuel s = some (r, s') →
      (r = 0 ∧ NothingSelected s s') ∨ (r = 1 ∧ OneSelected s s') := by
    intro hfc r s' h
    rw [frame_select, if_pos hfc] at h
    rcases frame_select_loop_outcome fuel s r s' h with ⟨hr, hn⟩ | ⟨hr, ho, _, _⟩
    · exact Or.inl ⟨hr, hn⟩
    · exact Or.inr ⟨hr, ho⟩
  refine ⟨?_, ?_, hfalse, ?_⟩
  · intro hfc
    simp [frame_select, hfc]
  · intro r s' h
    cases hfc : s.first_capture with
    | true =>
      simp only [frame_select, hfc, Bool.true_eq_false, if_false, Option.some.injEq,
        Prod.mk.injEq] at h
      simp [h.1.symm]
    | false =>
      rcases hfalse hfc r s' h with ⟨hr, _⟩ | ⟨hr, _⟩ <;> simp [hr]
  · intro hfc hr hfuel
    rw [frame_select, if_pos hfc]
    apply frame_select_loop_returns fuel s hr
    omega

theorem frame_select_contract_witness :
    (frame_select 90 { sysAt ⟨3, 2, 0, 3⟩ (framesWith 7) with first_capture := true } =
      some (-1, { sysAt ⟨3, 2, 0, 3⟩ (framesWith 7) with first_capture := true })) ∧
    ((1 : Int) = -1 ↔ (sysAt ⟨3, 2, 0, 3⟩ (framesWith 7)).first_capture = true) ∧
    (∃ r s', frame_select 90 (sysAt ⟨3, 2, 0, 3⟩ (framesWith 7)) = some (r, s')) :=
  ⟨(frame_select_contract 90 { sysAt ⟨3, 2, 0, 3⟩ (framesWith 7) with first_capture := true }).1
      rfl,
   (frame_select_contract 90 (sysAt ⟨3, 2, 0, 3⟩ (framesWith 7))).2.1 1
      (selectSlot (sysAt ⟨3, 2, 0, 3⟩ (framesWith 7)) (nextPtr READ_SEL_POINTER ⟨3, 2, 0, 3⟩).2)
      rfl,
   (frame_select_contract 90 (sysAt ⟨3, 2, 0, 3⟩ (framesWith 7))).2.2.2 rfl
      (by simp [CursorsInRange, sysAt, QUEUE_DEPTH]) (by decide)⟩

/-! ## `differencing` -/

/-- One `nextPtr(READ_DIFF_POINTER)` call moves only the diff-reader, by at most
one slot. -/
theorem nextPtr_diff_advanced (c : Cursors)
    (h : 0 ≤ c.rptr_diff ∧ c.rptr_diff < QUEUE_DEPTH) :
    DiffAdvanced 1 c (nextPtr READ_DIFF_POINTER c).2 := by
  simp only [QUEUE_DEPTH] at h
  rw [nextPtr_diff_eq]
  simp only [DiffAdvanced, QUEUE_DEPTH]
  split_ifs <;> simp <;> omega

/-- Advances of the diff-reader add up. -/
theorem diffAdvanced_trans {j k : Int} {c c' c'' : Cursors}
    (h1 : DiffAdvanced j c c') (h2 : DiffAdvanced k c' c'') :
    DiffAdvanced (j + k) c c'' := by
  obtain ⟨a1, a2, a3, a4, a5⟩ := h1
  obtain ⟨b1, b2, b3, b4, b5⟩ := h2
  simp only [QUEUE_DEPTH] at a4 a5 b4 b5
  simp only [DiffAdvanced, QUEUE_DEPTH]
  refine ⟨by omega, by omega, by omega, b4, by omega⟩

/-- The loop of `differencing`, entered with `frame_count_limit = limit`, moves only
the diff-reader, by at most `2 * limit + 1` slots, and never raises the limit. -/
theorem differencing_loop_advanced (limit : Nat) (s : Sys) (l' : Nat) (s' : Sys)
    (hr : 0 ≤ s.store.cur.rptr_diff ∧ s.store.cur.rptr_diff < QUEUE_DEPTH)
    (h : differencing_loop limit s = some (l', s')) :
    DiffAdvanced (2 * limit + 1) s.store.cur s'.store.cur ∧ l' ≤ limit := by
  induction limit generalizing s with
  | zero =>
    simp only [differencing_loop, Option.some.injEq, Prod.mk.injEq] at h
    obtain ⟨hl, hs⟩ := h
    subst hs
    exact ⟨by simpa using nextPtr_diff_advanced s.store.cur hr, by omega⟩
  | succ limit ih =>
    have a1 := nextPtr_diff_advanced s.store.cur hr
    simp only [differencing_loop] at h
    split_ifs at h with hadv
    · simp only [Option.some.injEq, Prod.mk.injEq] at h
      obtain ⟨hl, hs⟩ := h
      subst hs
      obtain ⟨b1, b2, b3, b4, b5⟩ := a1
      simp only [QUEUE_DEPTH] at b5
      refine ⟨⟨b1, b2, b3, b4, ?_⟩, by omega⟩
      simp only [QUEUE_DEPTH]
      push_cast
      omega
    · split at h
      · simp at h
      · rename_i temp htemp
        have a2 := nextPtr_diff_advanced (nextPtr READ_DIFF_POINTER s.store.cur).2 a1.2.2.2.1
        have a12 := diffAdvanced_trans a1 a2
        have hcur : ∀ u : Int, (write_usefulness u
            { s.store with cur := (nextPtr READ_DIFF_POINTER s.store.cur).2 }).2.cur =
            (nextPtr READ_DIFF_POINTER (nextPtr READ_DIFF_POINTER s.store.cur).2).2 := fun _ => rfl
        have key := ih _ (by
          split_ifs
          · exact a2.2.2.2.1
          · exact a2.2.2.2.1) h
        have a3 : DiffAdvanced (2 * (limit : Int) + 1)
            (nextPtr READ_DIFF_POINTER (nextPtr READ_DIFF_POINTER s.store.cur).2).2
            s'.store.cur := by
          have := key.1
          split_ifs at this <;> exact this
        have tot := diffAdvanced_trans a12 a3
        refine ⟨?_, by omega⟩
        have e : (1 : Int) + 1 + (2 * (limit : Int) + 1) = 2 * ((limit + 1 : Nat) : Int) + 1 := by
          push_cast
          ring
        rw [← e]
        exact tot

/-- A diff-reader advance leaves `depth` alone. -/
theorem nextPtr_diff_depth (c : Cursors) : (nextPtr READ_DIFF_POINTER c).2.depth = c.depth := by
  rw [nextPtr_diff_eq]
  split_ifs <;> rfl

/-- With data in the store, `read_frame_ptr` for the diff-reader returns the
payload and size of the slot at `rptr_diff`. -/
theorem read_frame_ptr_diff (size : Int) (st : Store) (h : st.cur.depth ≠ 0) :
    read_frame_ptr READ_DIFF_POINTER size st =
      (some st.cur.rptr_diff, (st.frame_buffer st.cur.rptr_diff).size, st) := by
  simp [read_frame_ptr, READ_DIFF_POINTER, READ_SEL_POINTER, START_OF_ENUM_PTR_TYPE,
    END_OF_ENUM_PTR_TYPE, ZERO, h]

/-- Through two valid pointers `perform_diff` has a result. -/
theorem perform_diff_at_valid (fb : Int → cbuff_struct_t) (n p size : Int) :
    ∃ t, perform_diff_at fb (some n) (some p) size = some t := by
  simp only [perform_diff_at]
  split_ifs <;> exact ⟨_, rfl⟩

/-- With data in the store and a baseline pointer that is not `NULL`, the loop of
`differencing` reads through valid pointers only and has a result. -/
theorem differencing_loop_defined (limit : Nat) (s : Sys)
    (hd : s.store.cur.depth ≠ 0) (hp : s.previous_frame ≠ none) :
    ∃ out, differencing_loop limit s = some out := by
  induction limit generalizing s with
  | zero => exact ⟨_, rfl⟩
  | succ limit ih =>
    simp only [differencing_loop]
    split_ifs with hadv
    · exact ⟨_, rfl⟩
    · have hd1 : (Store.mk (nextPtr READ_DIFF_POINTER s.store.cur).2
          s.store.frame_buffer).cur.depth ≠ 0 := by
        simp only [nextPtr_diff_depth]
        exact hd
      obtain ⟨p, hp'⟩ := Option.ne_none_iff_exists'.mp hp
      obtain ⟨t, ht⟩ := perform_diff_at_valid s.store.frame_buffer
        (nextPtr READ_DIFF_POINTER s.store.cur).2.rptr_diff p
        (s.store.frame_buffer (nextPtr READ_DIFF_POINTER s.store.cur).2.rptr_diff).size
      simp only [read_frame_ptr_diff _ _ hd1, hp', ht]
      apply ih
      · split_ifs <;> simp only [write_usefulness, nextPtr_diff_depth] <;> exact hd
      · simp

/-- C19, as stated, fails: with 50 frames pending behind the diff-reader, one call
of `differencing` returns 5 and leaves `rptr_diff` at 11, eleven slots ahead of
where it started. -/
theorem differencing_moves_eleven_slots :
    (differencing (sysAt ⟨50, 0, 0, 50⟩ (framesWith (-20)))).map
      (fun out => (out.1, out.2.store.cur.rptr_diff)) = some (5, 11) := by
  decide!

/-- C19 (amended): one invocation of `differencing` returns at most
`FRAMES_TO_SERVICE = 5` and moves `rptr_diff` forward by at most
`2 * FRAMES_TO_SERVICE + 1 = 11` slots modulo `QUEUE_DEPTH` (one advance per loop
test, one more in each `write_usefulness`), moving no other cursor; the call has a
result whenever the store holds data and the baseline pointer is not `NULL`. -/
theorem differencing_burst_bound (s : Sys)
    (hr : 0 ≤ s.store.cur.rptr_diff ∧ s.store.cur.rptr_diff < QUEUE_DEPTH) :
    (s.store.cur.depth ≠ 0 → s.previous_frame ≠ none → ∃ out, differencing s = some out) ∧
    (∀ r s', differencing s = some (r, s') →
      r ≤ FRAMES_TO_SERVICE ∧
      (s'.store.cur.rptr_diff - s.store.cur.rptr_diff) % QUEUE_DEPTH ≤
        2 * FRAMES_TO_SERVICE + 1 ∧
      s'.store.cur.wptr = s.store.cur.wptr ∧ s'.store.cur.rptr_sel = s.store.cur.rptr_sel ∧
      s'.store.cur.depth = s.store.cur.depth) := by
  have a1 := nextPtr_diff_advanced s.store.cur hr
  constructor
  · intro hd hp
    simp only [differencing]
    split_ifs
    · exact ⟨_, rfl⟩
    · exact ⟨_, rfl⟩
    · obtain ⟨out, hout⟩ := differencing_loop_defined FRAMES_TO_SERVICE.toNat s hd hp
      rw [hout]
      exact ⟨_, rfl⟩
    · exact ⟨_, rfl⟩
  · intro r s' h
    simp only [differencing] at h
    split_ifs at h with hg hfc hadv
    · simp only [Option.some.injEq, Prod.mk.injEq] at h
      obtain ⟨hr', hs⟩ := h
      subst hs
      obtain ⟨b1, b2, b3, _, b5⟩ := a1
      simp only [QUEUE_DEPTH, FRAMES_TO_SERVICE, ERROR_NEXT_PTR] at b5 hr' ⊢
      exact ⟨by omega, by omega, b1, b2, b3⟩
    · simp only [Option.some.injEq, Prod.mk.injEq] at h
      obtain ⟨hr', hs⟩ := h
      subst hs
      obtain ⟨b1, b2, b3, _, b5⟩ := a1
      simp only [QUEUE_DEPTH, FRAMES_TO_SERVICE] at b5 hr' ⊢
      exact ⟨by omega, by omega, b1, b2, b3⟩
    · split at h
      · simp at h
      · rename_i limit s1 hloop
        simp only [Option.some.injEq, Prod.mk.injEq] at h
        obtain ⟨hr', hs⟩ := h
        subst hs
        obtain ⟨⟨b1, b2, b3, _, b5⟩, hl⟩ := differencing_loop_advanced _ s limit s1 hr hloop
        simp only [QUEUE_DEPTH, FRAMES_TO_SERVICE] at b5 hr' hl ⊢
        have : ((5 : Int).toNat : Int) = 5 := by decide
        rw [this] at b5
        exact ⟨by omega, by omega, b1, b2, b3⟩
    · simp only [Option.some.injEq, Prod.mk.injEq] at h
      obtain ⟨hr', hs⟩ := h
      subst hs
      simp only [FRAMES_TO_SERVICE] at hr'
      refine ⟨?_, ?_, rfl, rfl, rfl⟩
      · simp only [FRAMES_TO_SERVICE]
        omega
      · simp [QUEUE_DEPTH, FRAMES_TO_SERVICE]

theorem differencing_burst_bound_witness :
    (∃ out, differencing (sysAt ⟨3, 0, 0, 3⟩ tinyFrames) = some out) ∧
    (∃ s', differencing (sysAt ⟨3, 0, 0, 3⟩ tinyFrames) = some (1, s') ∧
      (1 : Int) ≤ FRAMES_TO_SERVICE ∧
      (s'.store.cur.rptr_diff - 0) % QUEUE_DEPTH ≤ 2 * FRAMES_TO_SERVICE + 1) :=
  ⟨(differencing_burst_bound (sysAt ⟨3, 0, 0, 3⟩ tinyFrames) (by decide)).1
      (by decide) (by decide),
   ⟨_, rfl,
    ((differencing_burst_bound (sysAt ⟨3, 0, 0, 3⟩ tinyFrames) (by decide)).2 1 _
      rfl).1,
    ((differencing_burst_bound (sysAt ⟨3, 0, 0, 3⟩ tinyFrames) (by decide)).2 1 _
      rfl).2.1⟩⟩

/-- With `garbage_frames == 0`, `first_capture` true and data in the store
(`depth != 0`), in a state where the diff-reader can advance, the call of
`differencing` does baseline capture only. -/
theorem differencing_baseline_capture (s : Sys)
    (hg : s.garbage_frames = 0) (hfc : s.first_capture = true)
    (hdepth : s.store.cur.depth ≠ 0)
    (hadv : (nextPtr READ_DIFF_POINTER s.store.cur).1 = true)
    (hr : 0 ≤ s.store.cur.rptr_diff ∧ s.store.cur.rptr_diff < QUEUE_DEPTH) :
    ∃ r s', differencing s = some (r, s') ∧
      s'.previous_frame = some s.store.cur.rptr_diff ∧
      s'.old_ts = getMSfromTimestamp (s.store.frame_buffer s.store.cur.rptr_diff).timestamp ∧
      s'.store.cur.rptr_diff = (s.store.cur.rptr_diff + 1) % QUEUE_DEPTH ∧
      s'.store.cur.wptr = s.store.cur.wptr ∧ s'.store.cur.rptr_sel = s.store.cur.rptr_sel ∧
      s'.store.cur.depth = s.store.cur.depth ∧
      s'.store.frame_buffer = s.store.frame_buffer ∧
      s'.first_capture = false := by
  have hts : (read_timestamp READ_DIFF_POINTER s.temp_time s.store).2 =
      (s.store.frame_buffer s.store.cur.rptr_diff).timestamp := by
    simp [read_timestamp, READ_DIFF_POINTER, READ_SEL_POINTER, START_OF_ENUM_PTR_TYPE,
      END_OF_ENUM_PTR_TYPE, ZERO, hdepth]
  have hne : ¬ (nextPtr READ_DIFF_POINTER s.store.cur).1 = false := by simp [hadv]
  simp only [QUEUE_DEPTH] at hr
  have heq : differencing s = some (FRAMES_TO_SERVICE - (FRAMES_TO_SERVICE - 1),
      { s with
        store := { s.store with cur := (nextPtr READ_DIFF_POINTER s.store.cur).2 },
        size := (s.store.frame_buffer s.store.cur.rptr_diff).size,
        previous_frame := some s.store.cur.rptr_diff,
        temp_time := (s.store.frame_buffer s.store.cur.rptr_diff).timestamp,
        old_ts := getMSfromTimestamp (s.store.frame_buffer s.store.cur.rptr_diff).timestamp,
        first_capture := false }) := by
    simp only [differencing, hg, hfc, if_true, read_frame_ptr_diff _ _ hdepth, hts, if_neg hne]
  refine ⟨_, _, heq, rfl, rfl, ?_, ?_, ?_, ?_, rfl, rfl⟩
  · simp only [QUEUE_DEPTH]
    by_cases hc : (s.store.cur.rptr_diff < s.store.cur.wptr - 1 ∧ 90 ≠ s.store.cur.depth) ∨
        (s.store.cur.rptr_diff > s.store.cur.wptr ∧ s.store.cur.wptr ≠ 0)
    · rw [nextPtr_diff_eq, if_pos hc]
      simp only
      split_ifs <;> omega
    · rw [nextPtr_diff_eq, if_neg hc] at hadv
      simp at hadv
  · rw [nextPtr_diff_eq]
    split_ifs <;> rfl
  · rw [nextPtr_diff_eq]
    split_ifs <;> rfl
  · exact nextPtr_diff_depth _

/-- Before any reader has moved, i.e. after `reset_queue()` and writer advances
only, the diff-reader is at slot 0, and if it can advance it finds data in the
store: `depth != 0`, the condition under which `differencing` records its
baseline. -/
theorem depth_nonzero_after_writes (st0 : Store) (ops : List Op)
    (hw : allowed (fun _ op => op.isWrite) (afterReset st0) ops = true)
    (hadv : (nextPtr READ_DIFF_POINTER (run (afterReset st0) ops).cur).1 = true) :
    (run (afterReset st0) ops).cur.rptr_diff = 0 ∧
    (run (afterReset st0) ops).cur.depth ≠ 0 := by
  have hinv := run_invariant (fun _ op => op.isWrite)
    (fun st => st.cur.rptr_diff = 0 ∧ 0 ≤ st.cur.depth ∧ (st.cur.depth = 0 → st.cur.wptr = 0))
    (by
      intro st op h hok
      have hrole : op.role = WRITE_POINTER := by simpa [Op.isWrite] using hok
      rw [step_cur, hrole, nextPtr_write_eq]
      obtain ⟨h1, h2, h3⟩ := h
      refine ⟨h1, ?_, ?_⟩
      · simp only
        split_ifs <;> omega
      · simp only
        intro h0
        split_ifs at h0 <;> omega)
    ops (afterReset st0) (by simp [afterReset_cur]) hw
  obtain ⟨h1, _, h3⟩ := hinv
  refine ⟨h1, ?_⟩
  intro h0
  have hblocked := (reader_blocked_of_eq (run (afterReset st0) ops).cur).1
    (by rw [h1, h3 h0])
  rw [hblocked] at hadv
  exact Bool.false_ne_true hadv

/-- C20: with `garbage_frames == 0` and `first_capture` true, at a first call, i.e.
with the cursors reached from `reset_queue()` by writer advances only (no reader
moves before the baseline is captured), in a state where the diff-reader can
advance, the call of `differencing` does baseline capture only: `previous_frame`
points to the payload of the slot at `rptr_diff` and `old_ts` is what
`getMSfromTimestamp` returns for that slot's timestamp (its time in ms when the
timestamp is representable), `rptr_diff` moves forward by exactly one slot, no
other cursor moves, no frame record is written, and `first_capture` becomes
false. -/
theorem differencing_first_call (st0 : Store) (ops : List Op) (s : Sys)
    (hw : allowed (fun _ op => op.isWrite) (afterReset st0) ops = true)
    (hcur : s.store.cur = (run (afterReset st0) ops).cur)
    (hg : s.garbage_frames = 0) (hfc : s.first_capture = true)
    (hadv : (nextPtr READ_DIFF_POINTER s.store.cur).1 = true) :
    ∃ r s', differencing s = some (r, s') ∧
      s'.previous_frame = some s.store.cur.rptr_diff ∧
      s'.old_ts = getMSfromTimestamp (s.store.frame_buffer s.store.cur.rptr_diff).timestamp ∧
      (Representable (s.store.frame_buffer s.store.cur.rptr_diff).timestamp →
        s'.old_ts = exactMS (s.store.frame_buffer s.store.cur.rptr_diff).timestamp) ∧
      s'.store.cur.rptr_diff = (s.store.cur.rptr_diff + 1) % QUEUE_DEPTH ∧
      s'.store.cur.wptr = s.store.cur.wptr ∧ s'.store.cur.rptr_sel = s.store.cur.rptr_sel ∧
      s'.store.cur.depth = s.store.cur.depth ∧
      s'.store.frame_buffer = s.store.frame_buffer ∧
      s'.first_capture = false := by
  have hst := depth_nonzero_after_writes st0 ops hw (by rw [← hcur]; exact hadv)
  rw [← hcur] at hst
  obtain ⟨r, s', h, h1, h2, h3⟩ := differencing_baseline_capture s hg hfc hst.2 hadv
    (by rw [hst.1]; simp [QUEUE_DEPTH])
  refine ⟨r, s', h, h1, h2, ?_, h3⟩
  intro hrep
  rw [h2, getMSfromTimestamp, if_pos ⟨hrep.2.2.1, hrep.2.2.2⟩]

theorem differencing_first_call_witness :
    ∃ r s', differencing { sysAt ⟨3, 0, 0, 3⟩ (framesWith (-20)) with
        first_capture := true, previous_frame := none } = some (r, s') ∧
      s'.previous_frame = some 0 ∧ s'.old_ts = 0 ∧ s'.store.cur.rptr_diff = 1 ∧
      s'.first_capture = false := by
  obtain ⟨r, s', h, h1, h2, _, h3, _, _, _, _, h4⟩ :=
    differencing_first_call blankStore (List.replicate 3 (Op.nextPtr WRITE_POINTER))
      { sysAt ⟨3, 0, 0, 3⟩ (framesWith (-20)) with
        first_capture := true, previous_frame := none } (by decide) (by decide) rfl rfl
      (by decide)
  exact ⟨r, s', h, h1, h2, h3, h4⟩

/-! ## What `differencing` scores and returns -/

/-- Marking with the value chosen by a test is the chosen marking. -/
theorem write_usefulness_ite (c : Prop) [Decidable c] (a b : Int) (st : Store) :
    (if c then (write_usefulness a st).2 else (write_usefulness b st).2) =
      (write_usefulness (if c then a else b) st).2 := by
  split_ifs <;> rfl

/-- The frame records after the loop of `differencing` are the records before it
with the writes of `differencing_marks` applied, and the limit went down by one
for each of them. -/
theorem differencing_loop_marks (limit : Nat) (s : Sys) (l' : Nat) (s' : Sys)
    (h : differencing_loop limit s = some (l', s')) :
    s'.store.frame_buffer = applyMarks s.store.frame_buffer (differencing_marks limit s) ∧
    l' + (differencing_marks limit s).length = limit := by
  induction limit generalizing s with
  | zero =>
    simp only [differencing_loop, Option.some.injEq, Prod.mk.injEq] at h
    obtain ⟨hl, hs⟩ := h
    subst hs
    exact ⟨rfl, by simp [differencing_marks, hl.symm]⟩
  | succ limit ih =>
    simp only [differencing_loop, differencing_marks] at h ⊢
    split_ifs at h ⊢ with hadv
    · simp only [Option.some.injEq, Prod.mk.injEq] at h
      obtain ⟨hl, hs⟩ := h
      subst hs
      exact ⟨rfl, by simp [hl.symm]⟩
    · split at h
      · simp at h
      · rename_i temp htemp
        simp only [write_usefulness_ite] at h
        obtain ⟨h1, h2⟩ := ih _ h
        refine ⟨?_, ?_⟩
        · rw [h1]
          rfl
        · simp only [List.length_cons]
          omega

/-- C21, as stated, fails: the baseline-only first call, which writes no usefulness
at all, returns 1 and not 0. -/
theorem baseline_call_returns_one :
    (differencing { sysAt ⟨3, 0, 0, 3⟩ tinyFrames with
        first_capture := true, previous_frame := none }).map
      (fun out => (out.1, out.2.first_capture,
        (out.2.store.frame_buffer 0).usefulness, (out.2.store.frame_buffer 1).usefulness)) =
      some (1, false, -20, -20) := by
  decide!

/-- C21 (amended): in a non-baseline call the value `differencing` returns is the
number of frames it scored during that call, the frame records afterwards being
the records before with exactly those `write_usefulness` writes applied.  The
baseline-only first call writes no record and returns 1 when the diff-reader
advanced and `-ERROR_NEXT_PTR` when it could not; with `garbage_frames != 0` the
call does nothing and returns 0. -/
theorem differencing_return_value (s : Sys) (r : Int) (s' : Sys)
    (h : differencing s = some (r, s')) :
    (s.garbage_frames = 0 → s.first_capture = false →
      r = (differencing_marks FRAMES_TO_SERVICE.toNat s).length ∧
      s'.store.frame_buffer =
        applyMarks s.store.frame_buffer (differencing_marks FRAMES_TO_SERVICE.toNat s)) ∧
    (s.garbage_frames = 0 → s.first_capture = true →
      s'.store.frame_buffer = s.store.frame_buffer ∧
      ((nextPtr READ_DIFF_POINTER s.store.cur).1 = true → r = 1) ∧
      ((nextPtr READ_DIFF_POINTER s.store.cur).1 = false → r = -ERROR_NEXT_PTR)) ∧
    (s.garbage_frames ≠ 0 → r = 0 ∧ s' = s) := by
  refine ⟨?_, ?_, ?_⟩
  · intro hg hfc
    simp only [differencing, hg, hfc, if_true, Bool.false_eq_true, if_false] at h
    split at h
    · simp at h
    · rename_i limit s1 hloop
      simp only [Option.some.injEq, Prod.mk.injEq] at h
      obtain ⟨hr, hs⟩ := h
      subst hs
      obtain ⟨h1, h2⟩ := differencing_loop_marks _ s limit s1 hloop
      refine ⟨?_, h1⟩
      have h5 : FRAMES_TO_SERVICE.toNat = 5 := by decide
      rw [h5] at h2 ⊢
      simp only [FRAMES_TO_SERVICE] at hr
      omega
  · intro hg hfc
    simp only [differencing, hg, hfc, if_true] at h
    split_ifs at h with hadv
    · simp only [Option.some.injEq, Prod.mk.injEq] at h
      obtain ⟨hr, hs⟩ := h
      subst hs
      exact ⟨rfl, by simp [hadv], fun _ => hr.symm⟩
    · simp only [Option.some.injEq, Prod.mk.injEq] at h
      obtain ⟨hr, hs⟩ := h
      subst hs
      refine ⟨rfl, fun _ => ?_, fun hf => absurd hf hadv⟩
      rw [← hr]
      decide
  · intro hg
    simp only [differencing, hg, if_false, Option.some.injEq, Prod.mk.injEq] at h
    obtain ⟨hr, hs⟩ := h
    exact ⟨by rw [← hr]; decide, hs.symm⟩

theorem differencing_return_value_witness :
    ∃ s', differencing (sysAt ⟨3, 0, 0, 3⟩ tinyFrames) = some (1, s') ∧
      (1 : Int) = (differencing_marks FRAMES_TO_SERVICE.toNat (sysAt ⟨3, 0, 0, 3⟩ tinyFrames)).length ∧
      s'.store.frame_buffer =
        applyMarks tinyFrames
          (differencing_marks FRAMES_TO_SERVICE.toNat (sysAt ⟨3, 0, 0, 3⟩ tinyFrames)) :=
  ⟨_, rfl, (differencing_return_value (sysAt ⟨3, 0, 0, 3⟩ tinyFrames) 1 _ rfl).1 rfl rfl⟩

/-- C23, as stated, fails: a pixel that went from 255 to 0 is not counted although
the magnitude of its delta is 255, while the same pixel going from 0 to 255 is
counted, so `perform_diff` is not symmetric in its two payloads. -/
theorem perform_diff_not_symmetric :
    perform_diff [0] [255] 1 = 0 ∧ perform_diff [255] [0] 1 = 1 := by
  decide

/-- The loop of `perform_diff` adds to its counter the number of the remaining
pixel positions at which `new` exceeds `prev` by more than the threshold. -/
theorem perform_diff_loop_count (new prev : List Nat) (n pix diff_count : Nat) :
    perform_diff_loop new prev n pix diff_count =
      diff_count + (List.range' pix n).countP fun i =>
        decide ((new.getD i 0 : Int) - (prev.getD i 0 : Int) > FRAME_DIFF_THRESHOLD) := by
  induction n generalizing pix diff_count with
  | zero => simp [perform_diff_loop]
  | succ n ih =>
    simp only [perform_diff_loop, ih, List.range'_succ, List.countP_cons]
    split_ifs with h1 h2 h2
    · omega
    · exact absurd (by simpa using h1) (by simpa using h2)
    · exact absurd (by simpa using h2) (by simpa using h1)
    · omega

/-- C23 (amended): for `0 <= size <= MAX_BUFFER_LENGTH`, `perform_diff(new, prev, size)`
equals the number of pixel positions `i < size` at which `new[i] - prev[i]`, the
signed difference of the two bytes, exceeds `FRAME_DIFF_THRESHOLD = 20`. -/
theorem perform_diff_counts_risen (new prev : List Nat) (size : Int)
    (_h0 : 0 ≤ size) (h1 : size ≤ MAX_BUFFER_LENGTH) :
    perform_diff new prev size = risenPixels new prev size := by
  have hn : ¬ size > MAX_BUFFER_LENGTH := by omega
  simp only [perform_diff, hn, if_false, risenPixels, perform_diff_loop_count,
    List.range_eq_range', Nat.zero_add]

theorem perform_diff_counts_risen_witness :
    perform_diff [10, 200, 0, 31] [0, 100, 255, 10] 4 =
      risenPixels [10, 200, 0, 31] [0, 100, 255, 10] 4 :=
  perform_diff_counts_risen [10, 200, 0, 31] [0, 100, 255, 10] 4 (by decide) (by decide)

/-- C24 fails on the code: with a frame of size `MAX_BUFFER_LENGTH + 1` in slot 1,
`differencing` returns the count 1, not a negative error code, and that frame's
slot holds the usefulness `-ERROR_BUFFER_SIZE`. -/
theorem oversize_frame_is_scored :
    (differencing (sysAt ⟨3, 0, 0, 3⟩ oversizeFrames)).map
      (fun out => (out.1, out.2.size, (out.2.store.frame_buffer 1).usefulness)) =
      some (1, MAX_BUFFER_LENGTH + 1, -ERROR_BUFFER_SIZE) := by
  decide!

/-! ## More on the cursors -/

/-- C25, as stated, fails: after the run `lappedRun` from `reset_queue()`, in which
the writer laps the select-reader, `depth` is 0, below `QUEUE_DEPTH`, while
`(wptr - rptr_sel) mod QUEUE_DEPTH` is 86. -/
theorem depth_differs_from_distance :
    (run (afterReset blankStore) lappedRun).cur.depth < QUEUE_DEPTH ∧
    (run (afterReset blankStore) lappedRun).cur.depth = 0 ∧
    ((run (afterReset blankStore) lappedRun).cur.wptr -
      (run (afterReset blankStore) lappedRun).cur.rptr_sel) % QUEUE_DEPTH = 86 := by
  decide!

/-- C25 (amended): in every state reachable from `reset_queue()` by a sequence of
calls in which the writer never advances into a full store (`depth == QUEUE_DEPTH`),
if `depth < QUEUE_DEPTH` then `depth == (wptr - rptr_sel) mod QUEUE_DEPTH`. -/
theorem depth_is_distance_without_overrun (st0 : Store) (ops : List Op)
    (h : allowed storeNotFull (afterReset st0) ops = true)
    (hd : (run (afterReset st0) ops).cur.depth < QUEUE_DEPTH) :
    (run (afterReset st0) ops).cur.depth =
      ((run (afterReset st0) ops).cur.wptr - (run (afterReset st0) ops).cur.rptr_sel)
        % QUEUE_DEPTH := by
  have hinv := run_invariant storeNotFull (fun st => DepthTracksCursors st.cur)
    storeNotFull_step ops (afterReset st0)
    (by simp only [afterReset_cur]; simp [DepthTracksCursors, CursorsInRange, QUEUE_DEPTH]) h
  obtain ⟨_, hdep, hcong, _⟩ := hinv
  simp only [QUEUE_DEPTH] at hdep hcong hd ⊢
  omega

theorem depth_is_distance_without_overrun_witness :
    allowed storeNotFull (afterReset blankStore)
      [Op.write_size_and_time 640 ⟨1, 0⟩, Op.write_size_and_time 640 ⟨1, 5⟩,
       Op.nextPtr WRITE_POINTER, Op.write_usefulness 7, Op.nextPtr READ_SEL_POINTER] = true ∧
    (run (afterReset blankStore)
      [Op.write_size_and_time 640 ⟨1, 0⟩, Op.write_size_and_time 640 ⟨1, 5⟩,
       Op.nextPtr WRITE_POINTER, Op.write_usefulness 7, Op.nextPtr READ_SEL_POINTER]).cur.depth
      = (3 - 0) % QUEUE_DEPTH :=
  ⟨by decide, depth_is_distance_without_overrun blankStore _ (by decide) (by decide)⟩

/-- C26, as stated, fails: for the role argument 7, outside the enum range,
`nextPtr` gives the same result as for a blocked diff-reader advance, and with
`depth == 0` `read_usefulness` gives the same result as for `READ_DIFF_POINTER`. -/
theorem malformed_role_not_distinct :
    nextPtr 7 ⟨0, 0, 0, 0⟩ = nextPtr READ_DIFF_POINTER ⟨0, 0, 0, 0⟩ ∧
    read_usefulness 7 blankStore = read_usefulness READ_DIFF_POINTER blankStore := by
  decide

/-- C26 (amended): a malformed role argument is not signalled distinctly from a
capacity/no-data condition: for a type outside the three roles `nextPtr` returns
false and changes nothing, exactly as for a blocked reader advance, and for a type
outside the enum range `read_usefulness` returns `ERROR_READ_UFN`, exactly as for a
valid role when `depth == 0`. -/
theorem malformed_role_same_signal (type role : Int) (c : Cursors) (st : Store)
    (h1 : type ≠ WRITE_POINTER) (h2 : type ≠ READ_DIFF_POINTER) (h3 : type ≠ READ_SEL_POINTER)
    (hblocked : (nextPtr role c).1 = false)
    (hrange : ¬ (START_OF_ENUM_PTR_TYPE < type ∧ type < END_OF_ENUM_PTR_TYPE))
    (hdepth : st.cur.depth = 0) :
    nextPtr type c = nextPtr role c ∧ nextPtr type c = (false, c) ∧
    read_usefulness type st = read_usefulness role st ∧
    read_usefulness type st = ERROR_READ_UFN := by
  have e1 : nextPtr type c = (false, c) := nextPtr_invalid_type type c h1 h2 h3
  have e2 : nextPtr role c = (false, c) := by
    have hstate : (nextPtr role c).2 = c := by
      revert hblocked
      simp only [nextPtr, nextPtrAt]
      split_ifs <;> simp
    exact Prod.ext hblocked hstate
  have e3 : read_usefulness type st = ERROR_READ_UFN := by
    simp only [read_usefulness, decide_eq_true_eq, gt_iff_lt]
    rw [if_neg]
    tauto
  have e4 : read_usefulness role st = ERROR_READ_UFN := by
    simp only [read_usefulness, decide_eq_true_eq, gt_iff_lt, ZERO]
    rw [if_neg]
    intro hc
    exact hc.2 hdepth
  exact ⟨e1.trans e2.symm, e1, e3.trans e4.symm, e3⟩

theorem malformed_role_same_signal_witness :
    nextPtr 9 ⟨4, 4, 2, 2⟩ = nextPtr READ_DIFF_POINTER ⟨4, 4, 2, 2⟩ ∧
    nextPtr 9 ⟨4, 4, 2, 2⟩ = (false, ⟨4, 4, 2, 2⟩) ∧
    read_usefulness 9 blankStore = read_usefulness READ_DIFF_POINTER blankStore ∧
    read_usefulness 9 blankStore = ERROR_READ_UFN :=
  malformed_role_same_signal 9 READ_DIFF_POINTER ⟨4, 4, 2, 2⟩ blankStore (by decide) (by decide)
    (by decide) (by decide) (by decide) (by decide)

/-- C27: in a state with all cursors in `[0, QUEUE_DEPTH)`, if
`nextPtr(READ_DIFF_POINTER)` returns true then afterwards `rptr_diff != wptr`, and if
`nextPtr(READ_SEL_POINTER)` returns true then afterwards `rptr_sel != rptr_diff`. -/
theorem reader_never_lands_on_leader (c : Cursors) (hr : CursorsInRange c) :
    ((nextPtr READ_DIFF_POINTER c).1 = true →
      (nextPtr READ_DIFF_POINTER c).2.rptr_diff ≠ (nextPtr READ_DIFF_POINTER c).2.wptr) ∧
    ((nextPtr READ_SEL_POINTER c).1 = true →
      (nextPtr READ_SEL_POINTER c).2.rptr_sel ≠ (nextPtr READ_SEL_POINTER c).2.rptr_diff) := by
  obtain ⟨hw, hd, hs⟩ := hr
  simp only [QUEUE_DEPTH] at hw hd hs
  constructor
  · rw [nextPtr_diff_eq]
    by_cases hc : (c.rptr_diff < c.wptr - 1 ∧ 90 ≠ c.depth) ∨ (c.rptr_diff > c.wptr ∧ c.wptr ≠ 0)
    · rw [if_pos hc]
      intro _
      simp only
      split_ifs <;> omega
    · rw [if_neg hc]
      simp
  · rw [nextPtr_sel_eq]
    by_cases hc : (c.rptr_sel < c.rptr_diff - 1 ∧ 90 ≠ c.depth) ∨
        (c.rptr_sel > c.rptr_diff ∧ c.rptr_diff ≠ 0)
    · rw [if_pos hc]
      intro _
      simp only
      split_ifs <;> omega
    · rw [if_neg hc]
      simp

theorem reader_never_lands_on_leader_witness :
    (nextPtr READ_DIFF_POINTER ⟨1, 89, 50, 5⟩).2.rptr_diff ≠
      (nextPtr READ_DIFF_POINTER ⟨1, 89, 50, 5⟩).2.wptr ∧
    (nextPtr READ_SEL_POINTER ⟨9, 7, 5, 4⟩).2.rptr_sel ≠
      (nextPtr READ_SEL_POINTER ⟨9, 7, 5, 4⟩).2.rptr_diff :=
  ⟨(reader_never_lands_on_leader ⟨1, 89, 50, 5⟩ (by decide)).1 (by decide),
   (reader_never_lands_on_leader ⟨9, 7, 5, 4⟩ (by decide)).2 (by decide)⟩

/-- C28: in every state reachable from `reset_queue()` by any sequence of `nextPtr`,
`write_size_and_time`, `write_usefulness` and `write_framecount` calls, `wptr`,
`rptr_diff` and `rptr_sel` all lie in `[0, QUEUE_DEPTH)`, so every slot the store's
operations index by a cursor is a slot of the array. -/
theorem cursors_stay_in_range (st0 : Store) (ops : List Op) :
    CursorsInRange (run (afterReset st0) ops).cur := by
  have key := run_invariant (fun _ _ => true) (fun st => CursorsInRange st.cur)
    (by
      intro st op h _
      rw [step_cur]
      obtain ⟨hw, hd, hs⟩ := h
      simp only [QUEUE_DEPTH] at hw hd hs
      apply nextPtr_cases CursorsInRange
      · exact ⟨hw, hd, hs⟩
      · intro _
        simp only [CursorsInRange, QUEUE_DEPTH]
        split_ifs <;> omega
      · intro _
        simp only [CursorsInRange, QUEUE_DEPTH]
        split_ifs <;> omega
      · intro _
        simp only [CursorsInRange, QUEUE_DEPTH]
        split_ifs <;> omega)
    ops (afterReset st0)
    (by simp only [afterReset_cur]; simp [CursorsInRange, QUEUE_DEPTH])
  exact key (allowed_always ops _)

/-- No sequence of calls from `reset_queue()` makes a reader cursor negative. -/
theorem run_readers_nonneg (st0 : Store) (ops : List Op) :
    0 ≤ (run (afterReset st0) ops).cur.rptr_diff ∧ 0 ≤ (run (afterReset st0) ops).cur.rptr_sel := by
  have key := run_invariant (fun _ _ => true) (fun st => CursorsInRange st.cur)
    (by
      intro st op h _
      rw [step_cur]
      obtain ⟨hw, hd, hs⟩ := h
      simp only [QUEUE_DEPTH] at hw hd hs
      apply nextPtr_cases CursorsInRange
      · exact ⟨hw, hd, hs⟩
      · intro _
        simp only [CursorsInRange, QUEUE_DEPTH]
        split_ifs <;> omega
      · intro _
        simp only [CursorsInRange, QUEUE_DEPTH]
        split_ifs <;> omega
      · intro _
        simp only [CursorsInRange, QUEUE_DEPTH]
        split_ifs <;> omega)
    ops (afterReset st0)
    (by simp only [afterReset_cur]; simp [CursorsInRange, QUEUE_DEPTH])
  obtain ⟨_, hd, hs⟩ := key (allowed_always ops _)
  exact ⟨hd.1, hs.1⟩

/-- C29: wrap-boundary stall.  In every state reachable from `reset_queue()` by any
sequence of calls, and more generally in every state whose reader cursor is not
negative (every state in which it indexes the array),
`nextPtr(READ_DIFF_POINTER)` returns false whenever `wptr == 0` and
`nextPtr(READ_SEL_POINTER)` returns false whenever `rptr_diff == 0`, whatever
`depth` is and however many written slots the reader has not yet visited. -/
theorem reader_stalls_at_wrap :
    (∀ (st0 : Store) (ops : List Op), (run (afterReset st0) ops).cur.wptr = 0 →
      (nextPtr READ_DIFF_POINTER (run (afterReset st0) ops).cur).1 = false) ∧
    (∀ (st0 : Store) (ops : List Op), (run (afterReset st0) ops).cur.rptr_diff = 0 →
      (nextPtr READ_SEL_POINTER (run (afterReset st0) ops).cur).1 = false) ∧
    (∀ c : Cursors, 0 ≤ c.rptr_diff → c.wptr = 0 → (nextPtr READ_DIFF_POINTER c).1 = false) ∧
    (∀ c : Cursors, 0 ≤ c.rptr_sel → c.rptr_diff = 0 →
      (nextPtr READ_SEL_POINTER c).1 = false) := by
  have hdiff : ∀ c : Cursors, 0 ≤ c.rptr_diff → c.wptr = 0 →
      (nextPtr READ_DIFF_POINTER c).1 = false := by
    intro c h0 hw
    have hc : ¬ ((c.rptr_diff < c.wptr - 1 ∧ 90 ≠ c.depth) ∨
        (c.rptr_diff > c.wptr ∧ c.wptr ≠ 0)) := by omega
    rw [nextPtr_diff_eq, if_neg hc]
  have hsel : ∀ c : Cursors, 0 ≤ c.rptr_sel → c.rptr_diff = 0 →
      (nextPtr READ_SEL_POINTER c).1 = false := by
    intro c h0 hd
    have hc : ¬ ((c.rptr_sel < c.rptr_diff - 1 ∧ 90 ≠ c.depth) ∨
        (c.rptr_sel > c.rptr_diff ∧ c.rptr_diff ≠ 0)) := by omega
    rw [nextPtr_sel_eq, if_neg hc]
  exact ⟨fun st0 ops hw => hdiff _ (run_readers_nonneg st0 ops).1 hw,
    fun st0 ops hd => hsel _ (run_readers_nonneg st0 ops).2 hd, hdiff, hsel⟩

theorem reader_stalls_at_wrap_witness :
    (run (afterReset blankStore) (List.replicate 90 (Op.nextPtr WRITE_POINTER))).cur =
      ⟨0, 0, 0, 90⟩ ∧
    (nextPtr READ_DIFF_POINTER
      (run (afterReset blankStore) (List.replicate 90 (Op.nextPtr WRITE_POINTER))).cur).1 = false ∧
    (nextPtr READ_SEL_POINTER
      (run (afterReset blankStore) (List.replicate 3 (Op.nextPtr WRITE_POINTER))).cur).1 = false ∧
    (nextPtr READ_DIFF_POINTER ⟨0, 40, 20, 50⟩).1 = false ∧
    (nextPtr READ_SEL_POINTER ⟨30, 0, 60, 60⟩).1 = false :=
  ⟨by decide!,
   reader_stalls_at_wrap.1 blankStore (List.replicate 90 (Op.nextPtr WRITE_POINTER)) (by decide!),
   reader_stalls_at_wrap.2.1 blankStore (List.replicate 3 (Op.nextPtr WRITE_POINTER)) (by decide),
   reader_stalls_at_wrap.2.2.1 ⟨0, 40, 20, 50⟩ (by decide) (by decide),
   reader_stalls_at_wrap.2.2.2 ⟨30, 0, 60, 60⟩ (by decide) (by decide)⟩

/-- After `reset_queue()` and `QUEUE_DEPTH` writes the store is full with every
cursor at 0. -/
theorem cur_after_fill (st0 : Store) (ws : List (Int × timespec))
    (hlen : (ws.length : Int) = QUEUE_DEPTH) :
    (run (afterReset st0) (writeOps ws)).cur =
      { wptr := 0, rptr_diff := 0, rptr_sel := 0, depth := QUEUE_DEPTH } := by
  have hl : ws.length = 90 := by
    simp only [QUEUE_DEPTH] at hlen
    omega
  rw [run_cur, afterReset_cur, writeOps_roles, hl]
  decide!

/-- In a full store with both readers at 0, no call moves a reader or changes
`depth`. -/
theorem full_store_step (st : Store) (op : Op)
    (h : (0 ≤ st.cur.wptr ∧ st.cur.wptr < QUEUE_DEPTH) ∧ st.cur.rptr_diff = 0 ∧
      st.cur.rptr_sel = 0 ∧ st.cur.depth = QUEUE_DEPTH) :
    (0 ≤ (step op st).cur.wptr ∧ (step op st).cur.wptr < QUEUE_DEPTH) ∧
    (step op st).cur.rptr_diff = 0 ∧ (step op st).cur.rptr_sel = 0 ∧
    (step op st).cur.depth = QUEUE_DEPTH := by
  rw [step_cur]
  obtain ⟨hw, hd, hs, hdep⟩ := h
  simp only [QUEUE_DEPTH] at hw hdep
  apply nextPtr_cases (fun c => (0 ≤ c.wptr ∧ c.wptr < QUEUE_DEPTH) ∧ c.rptr_diff = 0 ∧
    c.rptr_sel = 0 ∧ c.depth = QUEUE_DEPTH)
  · exact ⟨hw, hd, hs, hdep⟩
  · intro _
    simp only [QUEUE_DEPTH]
    split_ifs <;> omega
  · intro hc
    omega
  · intro hc
    omega

/-- C30: the state reached from `reset_queue()` by `QUEUE_DEPTH` consecutive writes
(`rptr_diff == 0`, `rptr_sel == 0`, `depth == QUEUE_DEPTH`) is absorbing for the
readers: after every further sequence of calls `rptr_diff` and `rptr_sel` are still
0, `depth` is still `QUEUE_DEPTH`, and both reader advances return false. -/
theorem full_store_absorbs_readers (st0 : Store) (ws : List (Int × timespec))
    (hlen : (ws.length : Int) = QUEUE_DEPTH) (ops : List Op) :
    (run (afterReset st0) (writeOps ws)).cur =
      { wptr := 0, rptr_diff := 0, rptr_sel := 0, depth := QUEUE_DEPTH } ∧
    (run (run (afterReset st0) (writeOps ws)) ops).cur.rptr_diff = 0 ∧
    (run (run (afterReset st0) (writeOps ws)) ops).cur.rptr_sel = 0 ∧
    (run (run (afterReset st0) (writeOps ws)) ops).cur.depth = QUEUE_DEPTH ∧
    (nextPtr READ_DIFF_POINTER (run (run (afterReset st0) (writeOps ws)) ops).cur).1 = false ∧
    (nextPtr READ_SEL_POINTER (run (run (afterReset st0) (writeOps ws)) ops).cur).1 = false := by
  have hfill := cur_after_fill st0 ws hlen
  have hinv := run_invariant (fun _ _ => true)
    (fun st => (0 ≤ st.cur.wptr ∧ st.cur.wptr < QUEUE_DEPTH) ∧ st.cur.rptr_diff = 0 ∧
      st.cur.rptr_sel = 0 ∧ st.cur.depth = QUEUE_DEPTH)
    (fun st op h _ => full_store_step st op h) ops (run (afterReset st0) (writeOps ws))
    (by simp only [hfill]; simp [QUEUE_DEPTH]) (allowed_always ops _)
  obtain ⟨hw, hd, hs, hdep⟩ := hinv
  simp only [QUEUE_DEPTH] at hw hdep
  refine ⟨hfill, hd, hs, by simpa [QUEUE_DEPTH] using hdep, ?_, ?_⟩
  · have hc : ¬ (((run (run (afterReset st0) (writeOps ws)) ops).cur.rptr_diff <
          (run (run (afterReset st0) (writeOps ws)) ops).cur.wptr - 1 ∧
          90 ≠ (run (run (afterReset st0) (writeOps ws)) ops).cur.depth) ∨
        ((run (run (afterReset st0) (writeOps ws)) ops).cur.rptr_diff >
          (run (run (afterReset st0) (writeOps ws)) ops).cur.wptr ∧
          (run (run (afterReset st0) (writeOps ws)) ops).cur.wptr ≠ 0)) := by omega
    rw [nextPtr_diff_eq, if_neg hc]
  · exact (reader_blocked_of_eq _).2 (by rw [hd, hs])

theorem full_store_absorbs_readers_witness :
    (run (run (afterReset blankStore) (writeOps (List.replicate 90 (640, ⟨3, 250⟩))))
      [Op.nextPtr READ_DIFF_POINTER, Op.write_size_and_time 640 ⟨4, 0⟩,
       Op.write_usefulness 3, Op.nextPtr READ_SEL_POINTER]).cur.rptr_diff = 0 ∧
    (run (run (afterReset blankStore) (writeOps (List.replicate 90 (640, ⟨3, 250⟩))))
      [Op.nextPtr READ_DIFF_POINTER, Op.write_size_and_time 640 ⟨4, 0⟩,
       Op.write_usefulness 3, Op.nextPtr READ_SEL_POINTER]).cur.depth = QUEUE_DEPTH :=
  ⟨(full_store_absorbs_readers blankStore (List.replicate 90 (640, ⟨3, 250⟩)) (by decide)
      [Op.nextPtr READ_DIFF_POINTER, Op.write_size_and_time 640 ⟨4, 0⟩,
       Op.write_usefulness 3, Op.nextPtr READ_SEL_POINTER]).2.1,
   (full_store_absorbs_readers blankStore (List.replicate 90 (640, ⟨3, 250⟩)) (by decide)
      [Op.nextPtr READ_DIFF_POINTER, Op.write_size_and_time 640 ⟨4, 0⟩,
       Op.write_usefulness 3, Op.nextPtr READ_SEL_POINTER]).2.2.2.1⟩

end VisualSynchronome
